import Mathlib

/-!
Model of `src/core/net/uip-mcast6/roll-trickle.c`, the ROLL Trickle IPv6
multicast forwarding engine of Contiki.

Conventions of the embedding:

* The window table and the packet buffer are lists kept in the scan order
  of the C loops: the head of `windows` / `buffered_msgs` corresponds to
  the highest array index, which every loop in the source visits first
  (all loops run `for(ptr = &arr[N-1]; ptr >= arr; ptr--)`).
* The `sw` field of a packet stores the position (in that same order) of
  its owning window, modelling the `struct sliding_window *` back
  reference; pointer equality becomes index equality.
* Flag bits (`SLIDING_WINDOW_U_BIT`, `MCAST_PACKET_S_BIT`, ...) are
  modelled as named `Bool` fields; the C accessor macros become field
  accesses and the correspondence is noted at each field.
* C `uint8_t` counters are taken modulo 256; the `(int16_t)` casts inside
  the serial-number macros are modelled by `toInt16`.  Sequence values and
  window bounds are `Int`, matching the C comparison of `uint16_t`
  sequence values with the `int16_t` bound fields after integer promotion.
* `clock_time_t` values are modelled as natural numbers; `clock_time()`
  readings and `random_rand()` values are passed as explicit arguments.
* The build is the `ROLL_TRICKLE_SHORT_SEEDS` + `UIP_CONF_IPV6_CHECKS` +
  `UIP_MCAST6_STATS` configuration; seed ids are the 16-bit values carried
  in the hop-by-hop option, modelled as `Nat` compared for equality only.
* The ICMP input is modelled after the IPv6 header checks, as the list of
  already-delimited sequence-list records of the payload; the datagram
  input to `accept` is modelled as the already-extracted header facts and
  option fields.  The static scratch pointer `loctpptr`, which survives
  between calls, is passed in as `loctp0` (`none` models a pointer that
  does not point at either trickle timer, e.g. the initial NULL).
* Paths on which the C code dereferences a null pointer are surfaced as an
  explicit `crash` outcome; the state returned alongside reflects all
  stores performed before the faulting access.
-/

namespace RollTrickle

/-- The `(int16_t)` cast of a C `int` value (two's complement wrap). -/
def toInt16 (z : Int) : Int := (z + 32768) % 65536 - 32768

/-- `SEQ_VAL_IS_EQ` (roll-trickle.c:170). -/
def SEQ_VAL_IS_EQ (i1 i2 : Int) : Bool := decide (i1 = i2)

/-- `SEQ_VAL_IS_LT` (roll-trickle.c:175): RFC 1982 less-than with
`SERIAL_BITS = 15`. -/
def SEQ_VAL_IS_LT (i1 i2 : Int) : Bool :=
  decide (i1 ≠ i2 ∧
    ((i1 < i2 ∧ toInt16 (i2 - i1) < 0x4000) ∨
     (i1 > i2 ∧ toInt16 (i1 - i2) > 0x4000)))

/-- `SEQ_VAL_IS_GT` (roll-trickle.c:185). -/
def SEQ_VAL_IS_GT (i1 i2 : Int) : Bool :=
  decide (i1 ≠ i2 ∧
    ((i1 < i2 ∧ toInt16 (i2 - i1) > 0x4000) ∨
     (i1 > i2 ∧ toInt16 (i1 - i2) < 0x4000)))

/-- `SEQ_VAL_ADD` (roll-trickle.c:195). -/
def SEQ_VAL_ADD (s n : Int) : Int := (s + n) % 0x8000

/-- `struct sliding_window` (roll-trickle.c:198).  The three flag bits of
the `flags` byte are the fields `is_used` (`SLIDING_WINDOW_U_BIT`),
`m_bit` (`SLIDING_WINDOW_M_BIT`) and `listed` (`SLIDING_WINDOW_L_BIT`). -/
structure SlidingWindow where
  seed_id : Nat
  lower_bound : Int
  upper_bound : Int
  min_listed : Int
  is_used : Bool
  m_bit : Bool
  listed : Bool
  count : Nat
deriving DecidableEq, Inhabited

/-- `SLIDING_WINDOW_GET_M` (roll-trickle.c:265). -/
def SLIDING_WINDOW_GET_M (w : SlidingWindow) : Nat := if w.m_bit then 1 else 0

/-- `window_free` = `SLIDING_WINDOW_IS_USED_CLR` (roll-trickle.c:229). -/
def window_free (w : SlidingWindow) : SlidingWindow := { w with is_used := false }

/-- `struct mcast_packet` (roll-trickle.c:269).  Of the stored datagram
bytes only the fields the engine reads back are kept: the length and the
IP TTL byte (`MCAST_PACKET_TTL`).  The flag bits of `flags` are `is_used`
(`MCAST_PACKET_U_BIT`), `must_send` (`MCAST_PACKET_S_BIT`) and `listed`
(`MCAST_PACKET_L_BIT`). -/
structure McastPacket where
  seed_id : Nat
  active : Nat
  dwell : Nat
  buff_len : Nat
  seq_val : Int
  sw : Nat
  is_used : Bool
  must_send : Bool
  listed : Bool
  ttl : Nat
deriving DecidableEq, Inhabited

/-- `MCAST_PACKET_FREE` (roll-trickle.c:359): `flags = 0`. -/
def MCAST_PACKET_FREE (p : McastPacket) : McastPacket :=
  { p with is_used := false, must_send := false, listed := false }

/-- `struct trickle_param` (roll-trickle.c:87).  The `ctimer` is modelled
only through the `t_next` delay it is armed with. -/
structure TrickleParam where
  i_min : Nat
  t_start : Nat
  t_end : Nat
  t_next : Nat
  t_last_trigger : Nat
  i_current : Nat
  i_max : Nat
  k : Nat
  t_active : Nat
  t_dwell : Nat
  c : Nat
  inconsistency : Bool
deriving DecidableEq, Inhabited

/-- `struct roll_trickle_stats` counters touched by the modelled code. -/
structure Stats where
  mcast_in_all : Nat
  mcast_in_unique : Nat
  mcast_fwd : Nat
  mcast_out : Nat
  mcast_bad : Nat
  mcast_dropped : Nat
  icmp_out : Nat
  icmp_in : Nat
  icmp_bad : Nat
deriving DecidableEq, Inhabited

/-- The static state of the engine (roll-trickle.c:444-456). -/
structure EngineState where
  t0 : TrickleParam
  t1 : TrickleParam
  windows : List SlidingWindow
  buffered_msgs : List McastPacket
  last_seq : Int
  stat : Stats
deriving DecidableEq, Inhabited

/-- Read `t[m]` (the C code only ever indexes with `m` equal 0 or 1). -/
def EngineState.getT (s : EngineState) (m : Nat) : TrickleParam :=
  if m = 0 then s.t0 else s.t1

/-- Write `t[m]`. -/
def EngineState.setT (s : EngineState) (m : Nat) (p : TrickleParam) : EngineState :=
  if m = 0 then { s with t0 := p } else { s with t1 := p }

/-- `loctpptr->inconsistency = 1` when `loctpptr` points at `t[m]`. -/
def setIncons (m : Nat) (s : EngineState) : EngineState :=
  s.setT m { s.getT m with inconsistency := true }

def addBad (s : EngineState) : EngineState :=
  { s with stat := { s.stat with mcast_bad := s.stat.mcast_bad + 1 } }

def addDropped (s : EngineState) : EngineState :=
  { s with stat := { s.stat with mcast_dropped := s.stat.mcast_dropped + 1 } }

def addInAll (s : EngineState) : EngineState :=
  { s with stat := { s.stat with mcast_in_all := s.stat.mcast_in_all + 1 } }

def addInUnique (s : EngineState) : EngineState :=
  { s with stat := { s.stat with mcast_in_unique := s.stat.mcast_in_unique + 1 } }

def addFwd (s : EngineState) : EngineState :=
  { s with stat := { s.stat with mcast_fwd := s.stat.mcast_fwd + 1 } }

def addIcmpIn (s : EngineState) : EngineState :=
  { s with stat := { s.stat with icmp_in := s.stat.icmp_in + 1 } }

def addIcmpBad (s : EngineState) : EngineState :=
  { s with stat := { s.stat with icmp_bad := s.stat.icmp_bad + 1 } }

/-- The state effect of `icmp_output` (roll-trickle.c:789): the message
construction writes only the shared IPv6 buffer; the engine state change
is `STATS_ADD(icmp_out)`. -/
def addIcmpOut (s : EngineState) : EngineState :=
  { s with stat := { s.stat with icmp_out := s.stat.icmp_out + 1 } }

/-- `TRICKLE_TIME` (roll-trickle.c:108). -/
def TRICKLE_TIME (m d : Nat) : Nat := m <<< d

/-- `TRICKLE_IMAX` (roll-trickle.c:113). -/
def TRICKLE_IMAX (t : TrickleParam) : Nat := t.i_min <<< t.i_max

/-- `TRICKLE_ACTIVE` (roll-trickle.c:120). -/
def TRICKLE_ACTIVE (t : TrickleParam) : Nat := TRICKLE_IMAX t * t.t_active

/-- `TRICKLE_DWELL` (roll-trickle.c:127). -/
def TRICKLE_DWELL (t : TrickleParam) : Nat := TRICKLE_IMAX t * t.t_dwell

/-- `ROLL_TRICKLE_INFINITE_REDUNDANCY`, the reserved sentinel for the
redundancy constant `k` declared in `roll-trickle.h` (0xFF, the largest
`uint8_t` value); only its role as a distinguished sentinel matters. -/
def ROLL_TRICKLE_INFINITE_REDUNDANCY : Nat := 0xFF

/-- `SUPPRESSION_ENABLED` (roll-trickle.c:133). -/
def SUPPRESSION_ENABLED (t : TrickleParam) : Bool :=
  decide (t.k ≠ ROLL_TRICKLE_INFINITE_REDUNDANCY)

/-- `SUPPRESSION_DISABLED` (roll-trickle.c:139). -/
def SUPPRESSION_DISABLED (t : TrickleParam) : Bool :=
  decide (t.k = ROLL_TRICKLE_INFINITE_REDUNDANCY)

/-- The modulus operand of `random_interval` (roll-trickle.c:488):
`TRICKLE_TIME(i_min, d) - 1 - TRICKLE_TIME(i_min >> 1, d)`. -/
def random_interval_modulus (i_min d : Nat) : Nat :=
  TRICKLE_TIME i_min d - 1 - TRICKLE_TIME (i_min >>> 1) d

/-- `random_interval` (roll-trickle.c:480-489) with the `random_rand()`
value passed in.  In C a zero modulus operand is an undefined division;
here `%` by zero returns `rand` unchanged, and the zero-modulus situation
is exposed through `random_interval_modulus`. -/
def random_interval (i_min d rand : Nat) : Nat :=
  TRICKLE_TIME (i_min >>> 1) d + rand % random_interval_modulus i_min d

/-- `reset_trickle_timer` (roll-trickle.c:660-675).  The `ctimer_set` call
is modelled by the stored `t_next` delay. -/
def reset_trickle_timer (now rand : Nat) (index : Nat) (s : EngineState) : EngineState :=
  let tp := s.getT index
  s.setT index
    { tp with
      t_start := now
      t_end := now + tp.i_min
      i_current := 0
      c := 0
      t_next := random_interval tp.i_min 0 rand }

/-- `window_allocate` (roll-trickle.c:677-691): first free slot in scan
order; the slot keeps its old seed and flags, `count`, bounds and
`min_listed` are initialised. -/
def window_allocate : List SlidingWindow → Option (Nat × List SlidingWindow)
  | [] => none
  | w :: ws =>
    if w.is_used then
      match window_allocate ws with
      | none => none
      | some (j, ws2) => some (j + 1, w :: ws2)
    else
      some (0, { w with count := 0, lower_bound := -1, upper_bound := -1,
                        min_listed := -1 } :: ws)

/-- `window_lookup` (roll-trickle.c:693-707): first window in scan order
whose seed id and parametrization match.  Note that the C code does not
test the used bit here. -/
def window_lookup (seed m : Nat) : List SlidingWindow → Option Nat
  | [] => none
  | w :: ws =>
    if w.seed_id = seed ∧ SLIDING_WINDOW_GET_M w = m then some 0
    else (window_lookup seed m ws).map (· + 1)

/-- First loop of `window_update_bounds` (roll-trickle.c:712-715): every
window's `lower_bound` is reset to -1 (the `upper_bound` is not reset). -/
def clear_lower (ws : List SlidingWindow) : List SlidingWindow :=
  ws.map fun w => { w with lower_bound := -1 }

/-- Lower-bound update of `window_update_bounds` (roll-trickle.c:723-726)
for one packet value `v` on its window. -/
def ub_lower_step (w : SlidingWindow) (v : Int) : SlidingWindow :=
  if decide (w.lower_bound < 0) || SEQ_VAL_IS_LT v w.lower_bound then
    { w with lower_bound := v }
  else w

/-- Upper-bound update of `window_update_bounds` (roll-trickle.c:727-730)
for one packet value `v` on its window. -/
def ub_upper_step (w : SlidingWindow) (v : Int) : SlidingWindow :=
  if decide (w.upper_bound < 0) || SEQ_VAL_IS_GT v w.upper_bound then
    { w with upper_bound := v }
  else w

/-- Body of the second loop of `window_update_bounds`
(roll-trickle.c:717-732) for one buffered packet. -/
def update_bounds_step (ws : List SlidingWindow) (p : McastPacket) :
    List SlidingWindow :=
  if p.is_used then
    match ws.get? p.sw with
    | none => ws
    | some w => ws.set p.sw (ub_upper_step (ub_lower_step w p.seq_val) p.seq_val)
  else ws

/-- `window_update_bounds` (roll-trickle.c:709-733). -/
def window_update_bounds (ws : List SlidingWindow) (ps : List McastPacket) :
    List SlidingWindow :=
  ps.foldl update_bounds_step (clear_lower ws)

/-- `buffer_allocate` (roll-trickle.c:777-787): first free packet slot in
scan order. -/
def buffer_allocate : List McastPacket → Option Nat
  | [] => none
  | p :: ps =>
    if p.is_used then (buffer_allocate ps).map (· + 1) else some 0

/-- Selection loop of `buffer_reclaim` (roll-trickle.c:738-746):
`largest` starts at `&windows[0]` (the last element in scan order) and is
replaced on a strictly greater count while scanning all windows. -/
def reclaim_select_aux : List SlidingWindow → Nat → Nat × SlidingWindow →
    Nat × SlidingWindow
  | [], _, best => best
  | w :: ws, i, best =>
    reclaim_select_aux ws (i + 1)
      (if w.count > best.2.count then (i, w) else best)

/-- Selected window of `buffer_reclaim` together with its index. -/
def reclaim_select (ws : List SlidingWindow) : Option (Nat × SlidingWindow) :=
  match ws.getLast? with
  | none => none
  | some w0 => some (reclaim_select_aux ws 0 (ws.length - 1, w0))

/-- Eviction scan of `buffer_reclaim` (roll-trickle.c:758-771): first used
packet of the selected window whose sequence value equals the window's
lower bound. -/
def reclaim_scan (sel : Nat) (lb : Int) : List McastPacket → Option Nat
  | [] => none
  | p :: ps =>
    if p.is_used = true ∧ p.sw = sel ∧ SEQ_VAL_IS_EQ p.seq_val lb = true then
      some 0
    else (reclaim_scan sel lb ps).map (· + 1)

/-- `buffer_reclaim` (roll-trickle.c:735-775). -/
def buffer_reclaim (s : EngineState) : Option Nat × EngineState :=
  match reclaim_select s.windows with
  | none => (none, s)
  | some (sel, largest) =>
    if largest.count = 1 then (none, s)
    else
      match reclaim_scan sel largest.lower_bound s.buffered_msgs with
      | none => (none, s)
      | some j =>
        let ps := s.buffered_msgs.set j
          (MCAST_PACKET_FREE (s.buffered_msgs.getD j default))
        let ws := s.windows.set sel
          { largest with count := (largest.count + 255) % 256 }
        (some j, { s with windows := window_update_bounds ws ps,
                          buffered_msgs := ps })

/-- Outcome of `roll_trickle_accept`: the C return values 0 (drop) and
1 (accept), plus `crash` for the path that dereferences a null
`locmpptr`. -/
inductive AcceptResult where
  | drop
  | accepted
  | crash
deriving DecidableEq, Inhabited

/-- The facts `roll_trickle_accept` extracts from the datagram sitting in
the uIPv6 buffer: results of the header checks and the fields of the
Trickle hop-by-hop option (short-seed build). -/
structure Datagram where
  dest_non_routable : Bool
  src_unspecified : Bool
  proto_hbho : Bool
  opt_type_trickle : Bool
  opt_len_ok : Bool
  seed : Nat
  m : Nat
  seq_val : Int
  ttl : Nat
  buff_len : Nat
deriving DecidableEq, Inhabited

/-- Duplicate scan of `roll_trickle_accept` (roll-trickle.c:960-971). -/
def dup_scan (s : EngineState) (wIdx m : Nat) (seq : Int) : Bool :=
  s.buffered_msgs.any fun p =>
    p.is_used && decide (p.sw = wIdx) &&
    decide (SLIDING_WINDOW_GET_M (s.windows.getD p.sw default) = m) &&
    SEQ_VAL_IS_EQ seq p.seq_val

/-- Admission tail of `roll_trickle_accept` (roll-trickle.c:1013-1071),
entered once a window `wi` is in hand; `locmp` is the packet slot, `none`
when both allocation and reclamation failed and `count` was non-zero (the
C code then continues with a null `locmpptr` and crashes at the
`memset`, after having already updated the window). -/
def accept_insert (inb : Bool) (d : Datagram) (now rand : Nat)
    (s : EngineState) (wi : Nat) (locmp : Option Nat) :
    AcceptResult × EngineState :=
  let s1 := if inb then addInUnique s else s
  let w := s1.windows.getD wi default
  let w := { w with m_bit := d.m ≠ 0, is_used := true, seed_id := d.seed }
  let w := if w.count = 0 then { w with lower_bound := d.seq_val } else w
  let w := if w.count = 0 || SEQ_VAL_IS_GT d.seq_val w.upper_bound then
             { w with upper_bound := d.seq_val } else w
  let w := { w with count := (w.count + 1) % 256 }
  let s2 := { s1 with windows := s1.windows.set wi w }
  match locmp with
  | none => (.crash, s2)
  | some j =>
    let p : McastPacket :=
      { seed_id := 0, active := 0, dwell := 0, buff_len := d.buff_len,
        seq_val := d.seq_val, sw := wi, is_used := true, must_send := false,
        listed := false, ttl := d.ttl }
    let p := if inb then { p with must_send := true, ttl := (p.ttl + 255) % 256 }
             else p
    let s3 := { s2 with buffered_msgs := s2.buffered_msgs.set j p }
    let s4 := s3.setT d.m { s3.getT d.m with inconsistency := true }
    (.accepted, reset_trickle_timer now rand d.m s4)

/-- Buffer allocation step of `roll_trickle_accept`
(roll-trickle.c:989-1005): `buffer_allocate`, on failure
`buffer_reclaim`; if both fail and the window is empty, free it and
drop, otherwise fall through to admission with a null `locmpptr`. -/
def accept_have_window (inb : Bool) (d : Datagram) (now rand : Nat)
    (s : EngineState) (wi : Nat) : AcceptResult × EngineState :=
  let r :=
    match buffer_allocate s.buffered_msgs with
    | some j => (some j, s)
    | none => buffer_reclaim s
  match r with
  | (none, s1) =>
    if (s1.windows.getD wi default).count = 0 then
      (.drop, addDropped
        { s1 with windows :=
            s1.windows.set wi (window_free (s1.windows.getD wi default)) })
    else
      accept_insert inb d now rand s1 wi none
  | (some j, s1) => accept_insert inb d now rand s1 wi (some j)

/-- `roll_trickle_accept` (roll-trickle.c:872-1072) for the short-seed
build with IPv6 checks enabled. -/
def roll_trickle_accept (inb : Bool) (d : Datagram) (now rand : Nat)
    (s : EngineState) : AcceptResult × EngineState :=
  if d.dest_non_routable then (.drop, addBad s)
  else if d.src_unspecified then (.drop, addBad s)
  else if !d.proto_hbho then (.drop, addBad s)
  else if !d.opt_type_trickle then (.drop, addBad s)
  else if !d.opt_len_ok then (.drop, addBad s)
  else
    let s := if inb then addInAll s else s
    match window_lookup d.seed d.m s.windows with
    | some wi =>
      if SEQ_VAL_IS_LT d.seq_val (s.windows.getD wi default).lower_bound then
        (.drop, addDropped s)
      else if dup_scan s wi d.m d.seq_val then
        (.drop, addDropped s)
      else accept_have_window inb d now rand s wi
    | none =>
      match window_allocate s.windows with
      | none => (.drop, addDropped s)
      | some (wi, ws) =>
        accept_have_window inb d now rand { s with windows := ws } wi

/-- One sequence-list record of an inbound ICMP control message
(roll-trickle.c:362), already delimited: `res_zero` is whether the
reserved bits (`flags & SEQUENCE_LIST_RES`) are all zero, `s_bit` is
`SEQUENCE_LIST_GET_S`, `m` is `SEQUENCE_LIST_GET_M` (0 or 1), and `seqs`
are the advertised sequence values in host order. -/
structure SeqListRecord where
  res_zero : Bool
  s_bit : Bool
  m : Nat
  seed : Nat
  seqs : List Int
deriving DecidableEq, Inhabited

/-- Buffer search inside the per-value loop of `roll_trickle_icmp_input`
(roll-trickle.c:1204-1222): first used packet of window `wi` whose
sequence value equals `v`. -/
def find_pkt (wi : Nat) (v : Int) : List McastPacket → Option Nat
  | [] => none
  | p :: ps =>
    if p.is_used = true ∧ p.sw = wi ∧ SEQ_VAL_IS_EQ p.seq_val v = true then
      some 0
    else (find_pkt wi v ps).map (· + 1)

/-- Processing of one advertised sequence value `v` for the known window
`wi` of the current record (roll-trickle.c:1185-1231); `m` is the
record's parametrization (so `setIncons m` is the current
`loctpptr->inconsistency = 1`). -/
def icmp_one_val (m wi : Nat) (s : EngineState) (v : Int) : EngineState :=
  let w := s.windows.getD wi default
  let s1 := if SEQ_VAL_IS_GT v w.upper_bound then setIncons m s else s
  if (SEQ_VAL_IS_LT v w.upper_bound || SEQ_VAL_IS_EQ v w.upper_bound) &&
     (SEQ_VAL_IS_GT v w.lower_bound || SEQ_VAL_IS_EQ v w.lower_bound) then
    match find_pkt wi v s1.buffered_msgs with
    | some j =>
      let p := s1.buffered_msgs.getD j default
      let s2 := { s1 with buffered_msgs :=
                    s1.buffered_msgs.set j ({ p with listed := true }) }
      let w2 := s2.windows.getD wi default
      if decide (w2.min_listed = -1) || SEQ_VAL_IS_LT v w2.min_listed then
        { s2 with windows := s2.windows.set wi ({ w2 with min_listed := v }) }
      else s2
    | none => setIncons m s1
  else s1

/-- Record loop of `roll_trickle_icmp_input` (roll-trickle.c:1137-1242).
Returns `(parsedAll, loctp, state)`: `parsedAll = false` models the
`goto drop` short circuit, and `loctp` is the value of the static
`loctpptr` after the loop (an index into `t`). -/
def icmp_records : List SeqListRecord → Option Nat → EngineState →
    Bool × Option Nat × EngineState
  | [], loctp, s => (true, loctp, s)
  | r :: rs, loctp, s =>
    if !r.res_zero then (false, loctp, s)
    else if !r.s_bit then (false, loctp, addIcmpBad s)
    else
      let loctp := some r.m
      match window_lookup r.seed r.m s.windows with
      | some wi =>
        let w := s.windows.getD wi default
        let s1 := { s with windows :=
                      s.windows.set wi ({ w with listed := true, min_listed := -1 }) }
        let s2 := r.seqs.foldl (icmp_one_val r.m wi) s1
        icmp_records rs loctp s2
      | none =>
        icmp_records rs loctp (setIncons r.m s)

/-- Steps 1-2 of control-message processing: `STATS_ADD(icmp_in)`, the
clearing of all listed bits (roll-trickle.c:1119-1130) and the record
loop. -/
def icmp_process (msg : List SeqListRecord) (loctp0 : Option Nat)
    (s : EngineState) : Bool × Option Nat × EngineState :=
  let s := addIcmpIn s
  let s := { s with
    windows := s.windows.map (fun w => { w with listed := false })
    buffered_msgs := s.buffered_msgs.map (fun p => { p with listed := false }) }
  icmp_records msg loctp0 s

/-- One packet of the "check our buffer" scan (roll-trickle.c:1247-1275).
Returns `none` when the C code would dereference `loctpptr` while it
points at neither timer. -/
def icmp_check_step (loctp : Option Nat) (s : EngineState) (j : Nat) :
    Option EngineState :=
  let p := s.buffered_msgs.getD j default
  if p.is_used then
    let w := s.windows.getD p.sw default
    if !w.listed then
      match loctp with
      | none => none
      | some tm =>
        some { setIncons tm s with
          buffered_msgs := s.buffered_msgs.set j ({ p with must_send := true }) }
    else if !p.listed && decide (0 ≤ w.min_listed) &&
            SEQ_VAL_IS_GT p.seq_val w.min_listed then
      match loctp with
      | none => none
      | some tm =>
        some { setIncons tm s with
          buffered_msgs := s.buffered_msgs.set j ({ p with must_send := true }) }
    else some s
  else some s

/-- The full "check our buffer" scan (step 3), over all packet slots in
scan order. -/
def icmp_check_ours (loctp : Option Nat) (s : EngineState) :
    Option EngineState :=
  (List.range s.buffered_msgs.length).foldl
    (fun acc j => match acc with
      | none => none
      | some s1 => icmp_check_step loctp s1 j)
    (some s)

/-- The code after the `drop` label (roll-trickle.c:1277-1288): for each
timer, reset on inconsistency, else increment the consistency counter. -/
def icmp_step4 (now r0 r1 : Nat) (s : EngineState) : EngineState :=
  let s1 := if s.t0.inconsistency then reset_trickle_timer now r0 0 s
            else s.setT 0 { s.t0 with c := (s.t0.c + 1) % 256 }
  if (s1.getT 1).inconsistency then reset_trickle_timer now r1 1 s1
  else s1.setT 1 { s1.getT 1 with c := ((s1.getT 1).c + 1) % 256 }

/-- The engine state right before the `drop` label: after the record loop
(and, when no parse error occurred, the step-3 scan). -/
def icmp_before_step4 (msg : List SeqListRecord) (loctp0 : Option Nat)
    (s : EngineState) : Option EngineState :=
  match icmp_process msg loctp0 s with
  | (false, _, s1) => some s1
  | (true, loctp, s1) => icmp_check_ours loctp s1

/-- `roll_trickle_icmp_input` (roll-trickle.c:1074-1291) after the IPv6
header checks; `none` is the crash on a dangling `loctpptr`. -/
def roll_trickle_icmp_input (msg : List SeqListRecord) (loctp0 : Option Nat)
    (now r0 r1 : Nat) (s : EngineState) : Option EngineState :=
  (icmp_before_step4 msg loctp0 s).map (icmp_step4 now r0 r1)

/-- Result of a `handle_timer` pass: the new state and whether
`icmp_output` was called. -/
structure TimerResult where
  state : EngineState
  icmp_sent : Bool
deriving DecidableEq, Inhabited

/-- Body of the buffered-message loop of `handle_timer`
(roll-trickle.c:570-629) for the packet slot `j`; `tp` is the timer as
read at entry (the loop does not write the timer), `diff_last` and
`diff_start` the two time differences. -/
def handle_timer_pkt (m : Nat) (tp : TrickleParam) (diff_last diff_start : Nat)
    (s : EngineState) (j : Nat) : EngineState :=
  let p := s.buffered_msgs.getD j default
  if p.is_used &&
     decide (SLIDING_WINDOW_GET_M (s.windows.getD p.sw default) = m) then
    let p :=
      if p.active = 0 then
        { p with active := p.active + diff_start, dwell := p.dwell + diff_start }
      else
        { p with active := p.active + diff_last, dwell := p.dwell + diff_last }
    if p.dwell > TRICKLE_DWELL tp then
      let w := s.windows.getD p.sw default
      let w := { w with count := (w.count + 255) % 256 }
      let w := if w.count = 0 then window_free w else w
      { s with windows := s.windows.set p.sw w,
               buffered_msgs := s.buffered_msgs.set j (MCAST_PACKET_FREE p) }
    else if p.ttl > 0 then
      if (SUPPRESSION_ENABLED tp && p.must_send) ||
         (SUPPRESSION_DISABLED tp && decide (p.active < TRICKLE_ACTIVE tp)) then
        { addFwd s with
          buffered_msgs := s.buffered_msgs.set j ({ p with must_send := false }) }
      else { s with buffered_msgs := s.buffered_msgs.set j p }
    else { s with buffered_msgs := s.buffered_msgs.set j p }
  else s

/-- `handle_timer` (roll-trickle.c:532-658).  `now` is the first
`clock_time()` reading, `now2` the one taken when scheduling the doubling;
`stack_ready` is whether `uip_ds6_get_link_local(ADDR_PREFERRED)` found an
address, `rand` feeds the reset taken when it did not. -/
def handle_timer (m : Nat) (now now2 : Nat) (stack_ready : Bool) (rand : Nat)
    (s : EngineState) : TimerResult :=
  if !stack_ready then
    { state := reset_trickle_timer now rand m s, icmp_sent := false }
  else
    let tp := s.getT m
    let diff_last := now - tp.t_last_trigger
    let diff_start := now - tp.t_start
    let s := s.setT m { tp with t_next := now, t_last_trigger := now }
    let s := (List.range s.buffered_msgs.length).foldl
      (handle_timer_pkt m tp diff_last diff_start) s
    let sent := SUPPRESSION_ENABLED tp && decide (tp.c < tp.k)
    let s := if sent then addIcmpOut s else s
    let tp2 := { s.getT m with inconsistency := false, c := 0 }
    let s := s.setT m tp2
    let s := { s with windows := window_update_bounds s.windows s.buffered_msgs }
    let tnext := if tp2.t_end ≤ now2 then 0 else tp2.t_end - now2
    { state := s.setT m { tp2 with t_next := tnext }, icmp_sent := sent }

/-- The build-time parameters fed to `TIMER_CONFIGURE`
(roll-trickle.c:144-151). -/
structure TimerConf where
  i_min : Nat
  i_max : Nat
  k : Nat
  t_active : Nat
  t_dwell : Nat
deriving DecidableEq, Inhabited

/-- A timer after `memset` to zero plus `TIMER_CONFIGURE`. -/
def init_param (cf : TimerConf) (now : Nat) : TrickleParam :=
  { i_min := cf.i_min, t_start := 0, t_end := 0, t_next := 0,
    t_last_trigger := now, i_current := 0, i_max := cf.i_max, k := cf.k,
    t_active := cf.t_active, t_dwell := cf.t_dwell, c := 0,
    inconsistency := false }

/-- A window slot after `memset` to zero and the bound initialisation of
`roll_trickle_init`. -/
def init_window : SlidingWindow :=
  { seed_id := 0, lower_bound := -1, upper_bound := -1, min_listed := -1,
    is_used := false, m_bit := false, listed := false, count := 0 }

/-- A packet slot after `memset` to zero. -/
def init_packet : McastPacket :=
  { seed_id := 0, active := 0, dwell := 0, buff_len := 0, seq_val := 0,
    sw := 0, is_used := false, must_send := false, listed := false, ttl := 0 }

/-- `roll_trickle_init` (roll-trickle.c:1362-1384) with `W` window slots
and `B` packet slots. -/
def roll_trickle_init (W B : Nat) (cf0 cf1 : TimerConf) (now r0 r1 : Nat) :
    EngineState :=
  let s : EngineState :=
    { t0 := init_param cf0 now, t1 := init_param cf1 now,
      windows := List.replicate W init_window,
      buffered_msgs := List.replicate B init_packet,
      last_seq := 0,
      stat := { mcast_in_all := 0, mcast_in_unique := 0, mcast_fwd := 0,
                mcast_out := 0, mcast_bad := 0, mcast_dropped := 0,
                icmp_out := 0, icmp_in := 0, icmp_bad := 0 } }
  let s := reset_trickle_timer now r0 0 s
  reset_trickle_timer now r1 1 s

/-- Spec invariant (spec.md section 3, invariant (c)): every used
buffered packet attached to a used window is neither serially below the
window's lower bound nor serially above its upper bound. -/
def boundsInvariant (s : EngineState) : Bool :=
  s.buffered_msgs.all fun p =>
    !p.is_used ||
    (let w := s.windows.getD p.sw default
     !w.is_used ||
     (!SEQ_VAL_IS_LT p.seq_val w.lower_bound &&
      !SEQ_VAL_IS_GT p.seq_val w.upper_bound))

/-- Number of used buffered packets attached to window `i`. -/
def countAttached (ps : List McastPacket) (i : Nat) : Nat :=
  (ps.filter fun p => p.is_used && decide (p.sw = i)).length

/-- Largest `count` over all window slots. -/
def maxCount (ws : List SlidingWindow) : Nat :=
  ws.foldl (fun a w => max a w.count) 0

/-- Packet slot `j` is a used packet of window `i` sitting exactly at the
window's lower bound. -/
def attachedAtLower (s : EngineState) (j i : Nat) : Prop :=
  (s.buffered_msgs.getD j default).is_used = true ∧
  (s.buffered_msgs.getD j default).sw = i ∧
  SEQ_VAL_IS_EQ (s.buffered_msgs.getD j default).seq_val
    ((s.windows.getD i default).lower_bound) = true

instance (s : EngineState) (j i : Nat) : Decidable (attachedAtLower s j i) := by
  unfold attachedAtLower; infer_instance

/-- Two windows that agree on everything except possibly `lower_bound`. -/
def sameExceptLower (w1 w2 : SlidingWindow) : Prop :=
  w1.seed_id = w2.seed_id ∧ w1.upper_bound = w2.upper_bound ∧
  w1.min_listed = w2.min_listed ∧ w1.is_used = w2.is_used ∧
  w1.m_bit = w2.m_bit ∧ w1.listed = w2.listed ∧ w1.count = w2.count

/-- Concrete configuration used by the evaluation states below. -/
def smallConf : TimerConf :=
  { i_min := 64, i_max := 4, k := 1, t_active := 3, t_dwell := 6 }

/-- A used window with parametrization 0 and no listing state. -/
def mkWin (seed : Nat) (lo hi : Int) (cnt : Nat) : SlidingWindow :=
  { seed_id := seed, lower_bound := lo, upper_bound := hi, min_listed := -1,
    is_used := true, m_bit := false, listed := false, count := cnt }

/-- A used buffered packet attached to window `swi`. -/
def mkPkt (v : Int) (swi : Nat) : McastPacket :=
  { init_packet with
      seq_val := v
      sw := swi
      is_used := true
      ttl := 4
      buff_len := 40 }

/-- An inbound datagram that passes all header checks (parametrization 0). -/
def mkDgram (seed : Nat) (v : Int) : Datagram :=
  { dest_non_routable := false, src_unspecified := false, proto_hbho := true,
    opt_type_trickle := true, opt_len_ok := true, seed := seed, m := 0,
    seq_val := v, ttl := 8, buff_len := 60 }

/-- State for claim C1: two windows of one packet each, packet buffer of
two slots, both in use — `buffer_allocate` and `buffer_reclaim` both
fail. -/
def C1s : EngineState :=
  { t0 := init_param smallConf 0, t1 := init_param smallConf 0,
    windows := [mkWin 1 10 10 1, mkWin 2 20 20 1],
    buffered_msgs := [mkPkt 10 0, mkPkt 20 1],
    last_seq := 0, stat := default }

/-- Datagram for claim C1: a fresh in-range sequence value for the first
window. -/
def C1d : Datagram := mkDgram 1 11

/-- State for claim C2: one used window with parametrization 0 holding
one packet. -/
def C2s : EngineState :=
  { t0 := { init_param smallConf 0 with i_current := 2 },
    t1 := init_param smallConf 0,
    windows := [mkWin 7 5 5 1],
    buffered_msgs := [mkPkt 5 0],
    last_seq := 0, stat := default }

/-- Message for claim C2: a single record with parametrization 1 for an
unknown seed, so the last value of `loctpptr` is the timer `t[1]` while
the only buffered window has parametrization 0 and is not listed. -/
def C2msg : List SeqListRecord :=
  [{ res_zero := true, s_bit := true, m := 1, seed := 9, seqs := [] }]

/-- Engine state after the claim C2 message. -/
def C2post : EngineState :=
  (roll_trickle_icmp_input C2msg none 100 3 3 C2s).getD C2s

/-- State for claim C3: the inconsistency flag of the first timer is
still set from an earlier packet admission; both counters are
non-zero. -/
def C3s : EngineState :=
  { t0 := { init_param smallConf 0 with i_current := 2, c := 5, inconsistency := true },
    t1 := { init_param smallConf 0 with c := 2 },
    windows := [], buffered_msgs := [], last_seq := 0, stat := default }

/-- Engine state after an empty (fully consistent) control message in
`C3s`. -/
def C3post : EngineState :=
  (roll_trickle_icmp_input [] none 100 3 3 C3s).getD C3s

/-- Window table for claim C4: one used window whose stored upper bound
(100) is above every currently buffered value. -/
def C4ws : List SlidingWindow := [mkWin 1 3 100 1]

/-- Packet buffer for claim C4: the single attached packet has sequence
value 5. -/
def C4ps : List McastPacket := [mkPkt 5 0]

/-- Claim C5 trace: freshly initialised engine with 2 windows and 3
packet slots. -/
def C5s0 : EngineState := roll_trickle_init 2 3 smallConf smallConf 0 0 0

/-- First admission of the claim C5 trace (sequence value 0). -/
def C5r1 : AcceptResult × EngineState :=
  roll_trickle_accept true (mkDgram 5 0) 1 0 C5s0

/-- Second admission (sequence value 0x4000, incomparable with 0). -/
def C5r2 : AcceptResult × EngineState :=
  roll_trickle_accept true (mkDgram 5 0x4000) 2 0 C5r1.2

/-- Third admission (sequence value 0x2000, which lies serially above 0
and serially below 0x4000). -/
def C5r3 : AcceptResult × EngineState :=
  roll_trickle_accept true (mkDgram 5 0x2000) 3 0 C5r2.2

/-- State for the claim C9 witness: suppression disabled on the first
timer. -/
def C9s : EngineState :=
  { t0 := { init_param smallConf 0 with k := 0xFF },
    t1 := init_param smallConf 0,
    windows := [mkWin 3 4 4 1], buffered_msgs := [mkPkt 4 0],
    last_seq := 0, stat := default }

/-- Claim C1 (code divergence).  In `C1s` the packet buffer is full,
`BUF.allocate` fails and `BUF.reclaim` fails (every window has count 1),
and the looked-up window has non-zero count.  Contrary to the claim,
`accept` does not drop: the reclaim-failure branch only returns when the
window count is zero (roll-trickle.c:996-1005), so execution falls
through to admission with a null `locmpptr` — the window count is
incremented (to 2) and bumping `mcast_dropped` never happens before the
null-pointer write at the `memset` (roll-trickle.c:1042). -/
theorem C1_code_divergence :
    buffer_allocate C1s.buffered_msgs = none ∧
    (buffer_reclaim C1s).1 = none ∧
    (roll_trickle_accept true C1d 100 0 C1s).1 = AcceptResult.crash ∧
    (((roll_trickle_accept true C1d 100 0 C1s).2).windows.getD 0 default).count = 2 ∧
    ((roll_trickle_accept true C1d 100 0 C1s).2).stat.mcast_dropped =
      C1s.stat.mcast_dropped := by decide

/-- Claim C2 (code divergence).  After the `C2msg` control message, the
buffered window of parametrization 0 was not listed, so the claim
requires `t[0].inconsistency` to be set; the code instead writes through
the stale `loctpptr`, which still points at `t[1]` (the parametrization
of the last parsed record, roll-trickle.c:1171/1260): `t[0]` stays
consistent, gets its counter incremented instead of being reset, and the
flag lands on `t[1]`.  The packet is marked must-send as claimed. -/
theorem C2_code_divergence :
    (roll_trickle_icmp_input C2msg none 100 3 3 C2s).isSome = true ∧
    C2post.t0.inconsistency = false ∧
    C2post.t0.i_current = 2 ∧
    C2post.t0.c = 1 ∧
    C2post.t1.inconsistency = true ∧
    (C2post.buffered_msgs.getD 0 default).must_send = true := by decide

/-- Claim C3 (counterexample).  The empty control message parses fully
and performs no `inconsistency := true` assignment (both flags are
exactly what they were on entry), so the claim requires both consistency
counters to be incremented; but `t[0]` entered with its inconsistency
flag still set from an earlier admission, so step 4 resets it
(`c = 0`, `i_current = 0`) instead of incrementing `c` from 5 to 6.
`t[1]`, whose flag was clear, is incremented from 2 to 3. -/
theorem C3_counterexample :
    (roll_trickle_icmp_input [] none 100 3 3 C3s).isSome = true ∧
    (icmp_process [] none C3s).1 = true ∧
    (icmp_process [] none C3s).2.2.t0.inconsistency = C3s.t0.inconsistency ∧
    (icmp_process [] none C3s).2.2.t1.inconsistency = false ∧
    C3s.t0.c = 5 ∧
    C3post.t0.c = 0 ∧
    C3post.t0.i_current = 0 ∧
    C3post.t1.c = 3 := by decide

/-- Claim C4 (counterexample).  `window_update_bounds` on `C4ws`/`C4ps`:
the only attached packet has sequence value 5, so the claim requires the
window's upper bound to become 5 afterwards; the code never resets
`upper_bound` (only `lower_bound` is reset to -1,
roll-trickle.c:712-715), so the stale upper bound 100 survives. -/
theorem C4_counterexample :
    ((window_update_bounds C4ws C4ps).getD 0 default).lower_bound = 5 ∧
    ((window_update_bounds C4ws C4ps).getD 0 default).upper_bound = 100 ∧
    ((window_update_bounds C4ws C4ps).getD 0 default).upper_bound ≠ 5 := by
  decide

/-- Claim C5 (counterexample).  Starting from `roll_trickle_init`, three
complete runs of `accept` admit the sequence values 0, 0x4000 and 0x2000
into one window.  All three runs return accept, yet after the third run
the invariant fails: admitting 0x4000 leaves the upper bound at 0 (the
pair is incomparable), and admitting 0x2000 then raises the upper bound
to 0x2000, serially below the attached value 0x4000. -/
theorem C5_counterexample :
    boundsInvariant C5s0 = true ∧
    C5r1.1 = AcceptResult.accepted ∧ boundsInvariant C5r1.2 = true ∧
    C5r2.1 = AcceptResult.accepted ∧ boundsInvariant C5r2.2 = true ∧
    C5r3.1 = AcceptResult.accepted ∧ boundsInvariant C5r3.2 = false := by
  decide

/-- Claim C7 (counterexample).  For the configured `i_min` of 2 clock
ticks and 0 doublings the modulus operand of `random_interval` is
`(2 << 0) - 1 - (1 << 0) = 0`, so the claimed well-definedness (non-zero
modulus for every configured `i_min`) fails: in C this is a division by
zero. -/
theorem C7_counterexample : random_interval_modulus 2 0 = 0 := by decide

/-- Claim C8.  For 15-bit sequence values, at most one of the three
serial predicates holds, and a pair at circular distance exactly 0x4000
satisfies none of them (incomparable; no default ordering). -/
theorem C8_trichotomy (a b : Int) (ha0 : 0 ≤ a) (ha : a ≤ 0x7FFF)
    (hb0 : 0 ≤ b) (hb : b ≤ 0x7FFF) :
    (¬(SEQ_VAL_IS_EQ a b = true ∧ SEQ_VAL_IS_LT a b = true)) ∧
    (¬(SEQ_VAL_IS_EQ a b = true ∧ SEQ_VAL_IS_GT a b = true)) ∧
    (¬(SEQ_VAL_IS_LT a b = true ∧ SEQ_VAL_IS_GT a b = true)) ∧
    ((b - a) % 0x8000 = 0x4000 →
      SEQ_VAL_IS_EQ a b = false ∧ SEQ_VAL_IS_LT a b = false ∧
      SEQ_VAL_IS_GT a b = false) := by
  simp only [SEQ_VAL_IS_EQ, SEQ_VAL_IS_LT, SEQ_VAL_IS_GT, toInt16,
    decide_eq_true_eq, decide_eq_false_iff_not]
  omega

/-- Witness for claim C8 at the incomparable pair (0, 0x4000). -/
theorem C8_trichotomy_witness :
    SEQ_VAL_IS_EQ 0 0x4000 = false ∧ SEQ_VAL_IS_LT 0 0x4000 = false ∧
    SEQ_VAL_IS_GT 0 0x4000 = false :=
  (C8_trichotomy 0 0x4000 (by decide) (by decide) (by decide)
    (by decide)).2.2.2 (by decide)

/-- Claim C7 as amended: for an even `i_min` and any number of doublings
with current interval `I = i_min << d` at least 4 ticks, the modulus
operand of `random_interval` is non-zero and the result lies in
`[I/2, I)` for every value of the random source. -/
theorem C7_amended (i_min d rand : Nat) (heven : i_min % 2 = 0)
    (hI : 4 ≤ TRICKLE_TIME i_min d) :
    random_interval_modulus i_min d ≠ 0 ∧
    TRICKLE_TIME i_min d / 2 ≤ random_interval i_min d rand ∧
    random_interval i_min d rand < TRICKLE_TIME i_min d := by
  have he : i_min = 2 * (i_min / 2) := by omega
  have hT : TRICKLE_TIME i_min d = 2 * (i_min / 2 * 2 ^ d) := by
    rw [TRICKLE_TIME, Nat.shiftLeft_eq]
    calc i_min * 2 ^ d = 2 * (i_min / 2) * 2 ^ d := by rw [← he]
    _ = 2 * (i_min / 2 * 2 ^ d) := by ring
  have hTm : TRICKLE_TIME (i_min >>> 1) d = i_min / 2 * 2 ^ d := by
    rw [TRICKLE_TIME, Nat.shiftLeft_eq, Nat.shiftRight_eq_div_pow, pow_one]
  have hq2 : 2 ≤ i_min / 2 * 2 ^ d := by omega
  have hmod : random_interval_modulus i_min d = i_min / 2 * 2 ^ d - 1 := by
    rw [random_interval_modulus, hT, hTm]; omega
  have hrlt : rand % (i_min / 2 * 2 ^ d - 1) < i_min / 2 * 2 ^ d - 1 :=
    Nat.mod_lt _ (by omega)
  refine ⟨by rw [hmod]; omega, ?_, ?_⟩
  · rw [random_interval, hmod, hTm, hT]; omega
  · rw [random_interval, hmod, hTm, hT]; omega

/-- Witness for the amended claim C7 at `i_min = 64`, two doublings and
random value 1000. -/
theorem C7_amended_witness :
    random_interval_modulus 64 2 ≠ 0 ∧
    TRICKLE_TIME 64 2 / 2 ≤ random_interval 64 2 1000 ∧
    random_interval 64 2 1000 < TRICKLE_TIME 64 2 :=
  C7_amended 64 2 1000 (by decide) (by decide)

/-- Claim C9.  When the redundancy constant of a controller is the
infinite-redundancy sentinel, a `handle_timer` pass for that controller
never calls `icmp_output`, in any state, whether or not the uIPv6 stack
is ready. -/
theorem C9_no_icmp_when_infinite (m now now2 : Nat) (ready : Bool)
    (rand : Nat) (s : EngineState)
    (hk : (s.getT m).k = ROLL_TRICKLE_INFINITE_REDUNDANCY) :
    (handle_timer m now now2 ready rand s).icmp_sent = false := by
  cases ready <;> simp [handle_timer, SUPPRESSION_ENABLED, hk]

/-- Witness for claim C9: a pass over a state with buffered traffic and
`c < k`, where `k` is the sentinel. -/
theorem C9_witness : (handle_timer 0 10 11 true 3 C9s).icmp_sent = false :=
  C9_no_icmp_when_infinite 0 10 11 true 3 C9s (by decide)

/-- State for the claim C3 witness: the first timer enters the control
message with its inconsistency flag set. -/
def C3w : EngineState :=
  { t0 := { init_param smallConf 0 with inconsistency := true, c := 7, i_current := 1 },
    t1 := init_param smallConf 0,
    windows := [], buffered_msgs := [], last_seq := 0, stat := default }

/-- State for the claim C10 witness. -/
def C10s : EngineState :=
  { t0 := { init_param smallConf 0 with inconsistency := true, c := 4, i_current := 3 },
    t1 := init_param smallConf 0,
    windows := [mkWin 6 2 2 1], buffered_msgs := [], last_seq := 0, stat := default }

/-- State for the claim C6 witness: one window with two attached packets
(sequence values 3 and 4, lower bound 3). -/
def C6s : EngineState :=
  { t0 := init_param smallConf 0, t1 := init_param smallConf 0,
    windows := [mkWin 8 3 4 2], buffered_msgs := [mkPkt 3 0, mkPkt 4 0],
    last_seq := 0, stat := default }

/-- Reading a freshly set position. -/
lemma getD_set_self {α : Type} [Inhabited α] (l : List α) (i : Nat) (a : α)
    (h : i < l.length) : (l.set i a).getD i default = a := by
  simp [List.getD_eq_getElem?_getD, List.getElem?_set_self, h]

/-- Reading a position other than the one set. -/
lemma getD_set_ne {α : Type} [Inhabited α] (l : List α) (i j : Nat) (a : α)
    (h : j ≠ i) : (l.set j a).getD i default = l.getD i default := by
  simp [List.getD_eq_getElem?_getD, List.getElem?_set_ne h]

/-- Bridging `get?` and `getD`. -/
lemma getD_of_get? {α : Type} [Inhabited α] (l : List α) (i : Nat) (w : α)
    (hg : l.get? i = some w) : l.getD i default = w := by
  simp [List.getD_eq_getElem?_getD, ← List.get?_eq_getElem?, hg]

/-- `ub_lower_step` never changes the upper bound. -/
lemma ub_lower_step_upper (w : SlidingWindow) (v : Int) :
    (ub_lower_step w v).upper_bound = w.upper_bound := by
  unfold ub_lower_step; split <;> rfl

/-- `ub_upper_step` is the identity when the stored upper bound is
non-negative and the value is not serially greater. -/
lemma ub_upper_step_fixed (w : SlidingWindow) (v : Int)
    (hu : 0 ≤ w.upper_bound) (hgt : SEQ_VAL_IS_GT v w.upper_bound = false) :
    ub_upper_step w v = w := by
  unfold ub_upper_step
  rw [if_neg]
  simp only [hgt, Bool.or_false, decide_eq_true_eq]
  omega

/-- `update_bounds_step` preserves the table length. -/
lemma update_bounds_step_length (ws : List SlidingWindow) (p : McastPacket) :
    (update_bounds_step ws p).length = ws.length := by
  unfold update_bounds_step
  split
  · split
    · rfl
    · simp [List.length_set]
  · rfl

/-- The packet fold of `window_update_bounds` preserves the table
length. -/
lemma foldl_update_bounds_length (ps : List McastPacket) :
    ∀ ws : List SlidingWindow,
      (ps.foldl update_bounds_step ws).length = ws.length := by
  induction ps with
  | nil => intro ws; rfl
  | cons p ps ih =>
    intro ws
    rw [List.foldl_cons, ih, update_bounds_step_length]

/-- One `update_bounds_step` leaves the upper bound of window `i` at `u`
when `u` is non-negative and the packet, if attached to `i`, is not
serially above `u`. -/
lemma update_bounds_step_upper (ws : List SlidingWindow) (p : McastPacket)
    (i : Nat) (u : Int) (hi : i < ws.length) (hu : 0 ≤ u)
    (hup : (ws.getD i default).upper_bound = u)
    (hp : p.is_used = true → p.sw = i → SEQ_VAL_IS_GT p.seq_val u = false) :
    ((update_bounds_step ws p).getD i default).upper_bound = u := by
  unfold update_bounds_step
  by_cases hused : p.is_used = true
  · rw [if_pos hused]
    cases hg : ws.get? p.sw with
    | none => exact hup
    | some w =>
      show ((ws.set p.sw
        (ub_upper_step (ub_lower_step w p.seq_val) p.seq_val)).getD
          i default).upper_bound = u
      by_cases hsw : p.sw = i
      · subst hsw
        have hw : ws.getD p.sw default = w := getD_of_get? ws p.sw w hg
        have hwu : w.upper_bound = u := by rw [← hw]; exact hup
        have hfix : ub_upper_step (ub_lower_step w p.seq_val) p.seq_val =
            ub_lower_step w p.seq_val := by
          apply ub_upper_step_fixed
          · rw [ub_lower_step_upper, hwu]; exact hu
          · rw [ub_lower_step_upper, hwu]; exact hp hused rfl
        rw [hfix, getD_set_self _ _ _ hi, ub_lower_step_upper, hwu]
      · rw [getD_set_ne _ _ _ _ hsw]; exact hup
  · rw [if_neg hused]; exact hup

/-- The packet fold of `window_update_bounds` leaves the upper bound of
window `i` at `u` when `u` is non-negative and no used packet attached to
`i` is serially above `u`. -/
lemma foldl_update_bounds_upper (ps : List McastPacket) :
    ∀ (ws : List SlidingWindow) (i : Nat) (u : Int), i < ws.length → 0 ≤ u →
      (ws.getD i default).upper_bound = u →
      (∀ p ∈ ps, p.is_used = true → p.sw = i →
        SEQ_VAL_IS_GT p.seq_val u = false) →
      ((ps.foldl update_bounds_step ws).getD i default).upper_bound = u := by
  induction ps with
  | nil => intro ws i u _ _ hup _; exact hup
  | cons p ps ih =>
    intro ws i u hi hu hup hall
    rw [List.foldl_cons]
    refine ih _ i u ?_ hu ?_ ?_
    · rw [update_bounds_step_length]; exact hi
    · exact update_bounds_step_upper ws p i u hi hu hup
        (hall p (List.mem_cons_self p ps))
    · intro q hq; exact hall q (List.mem_cons_of_mem p hq)

/-- `clear_lower` maps windows that agree up to `lower_bound` to equal
windows. -/
lemma clear_lower_congr {ws1 ws2 : List SlidingWindow}
    (h : List.Forall₂ sameExceptLower ws1 ws2) :
    clear_lower ws1 = clear_lower ws2 := by
  induction h with
  | nil => rfl
  | @cons a b l1 l2 hab _ ih =>
    obtain ⟨h1, h2, h3, h4, h5, h6, h7⟩ := hab
    cases a; cases b
    simp only [clear_lower, List.map_cons] at ih ⊢
    simp_all

/-- Claim C4 as amended.  `window_update_bounds` recomputes only
`lower_bound` from scratch: (1) the result is completely independent of
the lower bounds held before the call; (2) `upper_bound` is updated in
place from its previous value — in particular, when the stored upper
bound is non-negative and no attached used packet is serially above it,
it is retained unchanged, even when it is not the serial maximum of the
attached packets. -/
theorem C4_amended :
    (∀ ws1 ws2 ps, List.Forall₂ sameExceptLower ws1 ws2 →
      window_update_bounds ws1 ps = window_update_bounds ws2 ps) ∧
    (∀ ws ps i, i < ws.length → 0 ≤ (ws.getD i default).upper_bound →
      (∀ p ∈ ps, p.is_used = true → p.sw = i →
        SEQ_VAL_IS_GT p.seq_val (ws.getD i default).upper_bound = false) →
      ((window_update_bounds ws ps).getD i default).upper_bound =
        (ws.getD i default).upper_bound) := by
  constructor
  · intro ws1 ws2 ps h
    rw [window_update_bounds, window_update_bounds, clear_lower_congr h]
  · intro ws ps i hi hu hall
    rw [window_update_bounds]
    apply foldl_update_bounds_upper
    · simpa [clear_lower] using hi
    · exact hu
    · simp [clear_lower, List.getD_eq_getElem?_getD, List.getElem?_map,
        List.getElem?_eq_getElem hi]
    · exact hall

/-- Witness for the amended claim C4: changing a window's stored lower
bound (3 to 77) does not change the result, and a stale upper bound of 9
above the single attached value 5 is retained. -/
theorem C4_amended_witness :
    window_update_bounds [mkWin 1 3 100 1] [mkPkt 5 0] =
      window_update_bounds [{ mkWin 1 3 100 1 with lower_bound := 77 }]
        [mkPkt 5 0] ∧
    ((window_update_bounds [mkWin 2 0 9 1] [mkPkt 5 0]).getD 0
        default).upper_bound =
      (([mkWin 2 0 9 1] : List SlidingWindow).getD 0 default).upper_bound :=
  ⟨C4_amended.1 _ _ _
      (List.Forall₂.cons ⟨rfl, rfl, rfl, rfl, rfl, rfl, rfl⟩ List.Forall₂.nil),
   C4_amended.2 [mkWin 2 0 9 1] [mkPkt 5 0] 0 (by decide) (by decide)
      (by decide)⟩

/-- Reading back the timer just written. -/
lemma getT_setT_same (s : EngineState) (m : Nat) (p : TrickleParam) :
    (s.setT m p).getT m = p := by
  unfold EngineState.getT EngineState.setT
  by_cases hm : m = 0 <;> simp [hm]

/-- `setIncons` on either timer preserves a true inconsistency flag on
any timer. -/
lemma setIncons_keep (i m : Nat) (s : EngineState)
    (h : (s.getT m).inconsistency = true) :
    ((setIncons i s).getT m).inconsistency = true := by
  unfold setIncons EngineState.setT EngineState.getT at *
  by_cases hi : i = 0 <;> by_cases hm : m = 0 <;> simp [hi, hm] at h ⊢ <;>
    simp [h]

/-- `icmp_one_val` never clears an inconsistency flag. -/
lemma icmp_one_val_keep (r wi : Nat) (v : Int) (s : EngineState) (m : Nat)
    (h : (s.getT m).inconsistency = true) :
    ((icmp_one_val r wi s v).getT m).inconsistency = true := by
  simp only [icmp_one_val]
  generalize hs1 : (if SEQ_VAL_IS_GT v (s.windows.getD wi default).upper_bound
      then setIncons r s else s) = s1
  have h1 : (s1.getT m).inconsistency = true := by
    rw [← hs1]; split
    · exact setIncons_keep r m s h
    · exact h
  split
  · cases hf : find_pkt wi v s1.buffered_msgs with
    | none => exact setIncons_keep r m s1 h1
    | some j =>
      simp only [hf]
      split
      · unfold EngineState.getT at h1 ⊢
        by_cases hm : m = 0 <;> simp [hm] at h1 ⊢ <;> exact h1
      · unfold EngineState.getT at h1 ⊢
        by_cases hm : m = 0 <;> simp [hm] at h1 ⊢ <;> exact h1
  · exact h1

/-- The per-record value loop never clears an inconsistency flag. -/
lemma foldl_one_val_keep (r wi : Nat) (vs : List Int) :
    ∀ (s : EngineState) (m : Nat), (s.getT m).inconsistency = true →
      ((vs.foldl (icmp_one_val r wi) s).getT m).inconsistency = true := by
  induction vs with
  | nil => intro s m h; exact h
  | cons v vs ih =>
    intro s m h
    rw [List.foldl_cons]
    exact ih _ _ (icmp_one_val_keep r wi v s m h)

/-- The record loop never clears an inconsistency flag. -/
lemma icmp_records_keep (rs : List SeqListRecord) :
    ∀ (loctp : Option Nat) (s : EngineState) (m : Nat),
      (s.getT m).inconsistency = true →
      (((icmp_records rs loctp s).2.2).getT m).inconsistency = true := by
  induction rs with
  | nil => intro loctp s m h; exact h
  | cons r rs ih =>
    intro loctp s m h
    simp only [icmp_records]
    split
    · exact h
    · split
      · unfold addIcmpBad
        unfold EngineState.getT at h ⊢
        by_cases hm : m = 0 <;> simp [hm] at h ⊢ <;> exact h
      · cases hlk : window_lookup r.seed r.m s.windows with
        | some wi =>
          simp only [hlk]
          apply ih
          apply foldl_one_val_keep
          unfold EngineState.getT at h ⊢
          by_cases hm : m = 0 <;> simp [hm] at h ⊢ <;> exact h
        | none =>
          simp only [hlk]
          exact ih _ _ m (setIncons_keep r.m m s h)

/-- Steps 1-2 of control-message processing never clear an inconsistency
flag. -/
lemma icmp_process_keep (msg : List SeqListRecord) (loctp0 : Option Nat)
    (s : EngineState) (m : Nat) (h : (s.getT m).inconsistency = true) :
    (((icmp_process msg loctp0 s).2.2).getT m).inconsistency = true := by
  simp only [icmp_process]
  apply icmp_records_keep
  unfold addIcmpIn
  unfold EngineState.getT at h ⊢
  by_cases hm : m = 0 <;> simp [hm] at h ⊢ <;> exact h

/-- The step-3 fold started from a dead accumulator stays dead. -/
lemma foldl_check_none (loctp : Option Nat) (l : List Nat) :
    l.foldl (fun acc j => match acc with
      | none => none
      | some s1 => icmp_check_step loctp s1 j) none = none := by
  induction l with
  | nil => rfl
  | cons a l ih => simpa using ih

/-- One step of the step-3 scan never clears an inconsistency flag. -/
lemma icmp_check_step_keep (loctp : Option Nat) (s : EngineState) (j : Nat)
    (s' : EngineState) (hs : icmp_check_step loctp s j = some s') (m : Nat)
    (h : (s.getT m).inconsistency = true) :
    (s'.getT m).inconsistency = true := by
  simp only [icmp_check_step] at hs
  split at hs
  · split at hs
    · cases loctp with
      | none => simp at hs
      | some tm =>
        simp only [Option.some.injEq] at hs
        subst hs
        have h2 := setIncons_keep tm m s h
        unfold EngineState.getT at h2 ⊢
        by_cases hm : m = 0 <;> simp [hm] at h2 ⊢ <;> exact h2
    · split at hs
      · cases loctp with
        | none => simp at hs
        | some tm =>
          simp only [Option.some.injEq] at hs
          subst hs
          have h2 := setIncons_keep tm m s h
          unfold EngineState.getT at h2 ⊢
          by_cases hm : m = 0 <;> simp [hm] at h2 ⊢ <;> exact h2
      · simp only [Option.some.injEq] at hs; subst hs; exact h
  · simp only [Option.some.injEq] at hs; subst hs; exact h

/-- The step-3 scan never clears an inconsistency flag. -/
lemma foldl_check_keep (loctp : Option Nat) (l : List Nat) :
    ∀ (s s' : EngineState),
      l.foldl (fun acc j => match acc with
        | none => none
        | some s1 => icmp_check_step loctp s1 j) (some s) = some s' →
      ∀ m, (s.getT m).inconsistency = true →
        (s'.getT m).inconsistency = true := by
  induction l with
  | nil =>
    intro s s' hs m h
    simp only [List.foldl_nil, Option.some.injEq] at hs
    subst hs; exact h
  | cons a l ih =>
    intro s s' hs m h
    rw [List.foldl_cons] at hs
    dsimp only at hs
    cases hstep : icmp_check_step loctp s a with
    | none => rw [hstep, foldl_check_none] at hs; cases hs
    | some s1 =>
      rw [hstep] at hs
      exact ih s1 s' hs m (icmp_check_step_keep loctp s a s1 hstep m h)

/-- `icmp_check_ours` never clears an inconsistency flag. -/
lemma icmp_check_ours_keep (loctp : Option Nat) (s s' : EngineState)
    (hs : icmp_check_ours loctp s = some s') (m : Nat)
    (h : (s.getT m).inconsistency = true) :
    (s'.getT m).inconsistency = true := by
  unfold icmp_check_ours at hs
  exact foldl_check_keep loctp _ s s' hs m h

/-- The whole processing phase before the `drop` label never clears an
inconsistency flag. -/
lemma before_step4_keep (msg : List SeqListRecord) (loctp0 : Option Nat)
    (s sm : EngineState) (hs : icmp_before_step4 msg loctp0 s = some sm)
    (m : Nat) (h : (s.getT m).inconsistency = true) :
    (sm.getT m).inconsistency = true := by
  have hp := icmp_process_keep msg loctp0 s m h
  unfold icmp_before_step4 at hs
  rcases hpe : icmp_process msg loctp0 s with ⟨b, loctp, s1⟩
  rw [hpe] at hs hp
  cases b
  · simp only [Option.some.injEq] at hs
    subst hs; exact hp
  · exact icmp_check_ours_keep loctp s1 sm hs m hp

/-- Step 4 resets a controller whose inconsistency flag is set when the
`drop` label is reached: its doubling counter and consistency counter
both become 0. -/
lemma step4_reset_of_incons (now r0 r1 : Nat) (sm : EngineState) (m : Nat)
    (hm : m < 2) (h : (sm.getT m).inconsistency = true) :
    ((icmp_step4 now r0 r1 sm).getT m).c = 0 ∧
    ((icmp_step4 now r0 r1 sm).getT m).i_current = 0 := by
  interval_cases m
  · have h0 : sm.t0.inconsistency = true := by
      simpa [EngineState.getT] using h
    by_cases h1 : sm.t1.inconsistency = true <;>
      simp [icmp_step4, reset_trickle_timer, EngineState.getT,
        EngineState.setT, h0, h1]
  · have h1 : sm.t1.inconsistency = true := by
      simpa [EngineState.getT] using h
    by_cases h0 : sm.t0.inconsistency = true <;>
      simp [icmp_step4, reset_trickle_timer, EngineState.getT,
        EngineState.setT, h0, h1]

/-- Step 4 increments the consistency counter of a controller whose
inconsistency flag is clear when the `drop` label is reached. -/
lemma step4_inc_of_clear (now r0 r1 : Nat) (sm : EngineState) (m : Nat)
    (hm : m < 2) (h : (sm.getT m).inconsistency = false) :
    ((icmp_step4 now r0 r1 sm).getT m).c = ((sm.getT m).c + 1) % 256 := by
  interval_cases m
  · have h0 : sm.t0.inconsistency = false := by
      simpa [EngineState.getT] using h
    by_cases h1 : sm.t1.inconsistency = true <;>
      simp [icmp_step4, reset_trickle_timer, EngineState.getT,
        EngineState.setT, h0, h1]
  · have h1 : sm.t1.inconsistency = false := by
      simpa [EngineState.getT] using h
    by_cases h0 : sm.t0.inconsistency = true <;>
      simp [icmp_step4, reset_trickle_timer, EngineState.getT,
        EngineState.setT, h0, h1]

/-- A full `handle_timer` pass (with the stack ready) leaves its
controller's inconsistency flag clear. -/
lemma handle_timer_clears (m now now2 rand : Nat) (s : EngineState) :
    (((handle_timer m now now2 true rand s).state).getT m).inconsistency =
      false := by
  simp [handle_timer, getT_setT_same]

/-- Claim C3 as amended.  For every control message that passes header
validation (with `sm` the state at the `drop` label, i.e. after the
record loop and — absent a parse error — the buffered-packet scan):
the input runs step 4 on `sm`; a controller whose inconsistency flag is
true at that point is reset (`c = 0`, `i_current = 0`) and one whose
flag is false gets `c` incremented — and since processing never clears a
flag, a flag that was already set on entry (e.g. by a packet admission)
forces a reset even when the message itself causes no inconsistency.
The same step-4 update runs on the parse-error (`goto drop`) path. -/
theorem C3_amended (msg : List SeqListRecord) (loctp0 : Option Nat)
    (now r0 r1 : Nat) (s sm : EngineState) (m : Nat) (hm : m < 2)
    (hpre : icmp_before_step4 msg loctp0 s = some sm) :
    roll_trickle_icmp_input msg loctp0 now r0 r1 s =
      some (icmp_step4 now r0 r1 sm) ∧
    ((sm.getT m).inconsistency = true →
      ((icmp_step4 now r0 r1 sm).getT m).c = 0 ∧
      ((icmp_step4 now r0 r1 sm).getT m).i_current = 0) ∧
    ((sm.getT m).inconsistency = false →
      ((icmp_step4 now r0 r1 sm).getT m).c = ((sm.getT m).c + 1) % 256) ∧
    ((s.getT m).inconsistency = true → (sm.getT m).inconsistency = true) := by
  refine ⟨?_, ?_, ?_, ?_⟩
  · simp [roll_trickle_icmp_input, hpre]
  · intro hf; exact step4_reset_of_incons now r0 r1 sm m hm hf
  · intro hf; exact step4_inc_of_clear now r0 r1 sm m hm hf
  · intro hf; exact before_step4_keep msg loctp0 s sm hpre m hf

/-- Witness for the amended claim C3: an empty message on `C3w`, whose
first controller enters with the flag set (so it resets) and whose
second is clear (so its counter is incremented). -/
theorem C3_amended_witness :
    roll_trickle_icmp_input [] none 50 2 2 C3w =
      some (icmp_step4 50 2 2 ((icmp_before_step4 [] none C3w).getD C3w)) ∧
    ((icmp_step4 50 2 2 ((icmp_before_step4 [] none C3w).getD C3w)).getT
        0).c = 0 ∧
    ((icmp_step4 50 2 2 ((icmp_before_step4 [] none C3w).getD C3w)).getT
        1).c =
      ((((icmp_before_step4 [] none C3w).getD C3w).getT 1).c + 1) % 256 := by
  have h0 := C3_amended [] none 50 2 2 C3w
    ((icmp_before_step4 [] none C3w).getD C3w) 0 (by decide) (by decide)
  have h1 := C3_amended [] none 50 2 2 C3w
    ((icmp_before_step4 [] none C3w).getD C3w) 1 (by decide) (by decide)
  exact ⟨h0.1, (h0.2.1 (by decide)).1, h1.2.2.1 (by decide)⟩

/-- Claim C10.  `reset_trickle_timer` touches only `t_start`, `t_end`,
`i_current`, `c` and `t_next` of its own controller: the inconsistency
flag, the configuration fields and `t_last_trigger` of that controller,
the whole other controller, and the window, packet and statistics state
are unchanged.  Consequently a flag set during packet admission stays
set across the reset, makes the next control message reset the timer
(c and i_current to 0) rather than increment c, and is cleared by a full
`handle_timer` pass. -/
theorem C10_reset_frame :
    (∀ now rand m (s : EngineState), m < 2 →
      ((reset_trickle_timer now rand m s).getT m).inconsistency =
        (s.getT m).inconsistency ∧
      ((reset_trickle_timer now rand m s).getT m).k = (s.getT m).k ∧
      ((reset_trickle_timer now rand m s).getT m).i_min = (s.getT m).i_min ∧
      ((reset_trickle_timer now rand m s).getT m).i_max = (s.getT m).i_max ∧
      ((reset_trickle_timer now rand m s).getT m).t_active =
        (s.getT m).t_active ∧
      ((reset_trickle_timer now rand m s).getT m).t_dwell =
        (s.getT m).t_dwell ∧
      ((reset_trickle_timer now rand m s).getT m).t_last_trigger =
        (s.getT m).t_last_trigger ∧
      (reset_trickle_timer now rand m s).getT (1 - m) = s.getT (1 - m) ∧
      (reset_trickle_timer now rand m s).windows = s.windows ∧
      (reset_trickle_timer now rand m s).buffered_msgs = s.buffered_msgs ∧
      (reset_trickle_timer now rand m s).stat = s.stat ∧
      (reset_trickle_timer now rand m s).last_seq = s.last_seq) ∧
    (∀ msg loctp0 now r0 r1 (s sm : EngineState) m, m < 2 →
      (s.getT m).inconsistency = true →
      icmp_before_step4 msg loctp0 s = some sm →
      ((icmp_step4 now r0 r1 sm).getT m).c = 0 ∧
      ((icmp_step4 now r0 r1 sm).getT m).i_current = 0) ∧
    (∀ m now now2 rand (s : EngineState),
      (((handle_timer m now now2 true rand s).state).getT m).inconsistency =
        false) := by
  refine ⟨?_, ?_, ?_⟩
  · intro now rand m s hm
    interval_cases m <;>
      simp [reset_trickle_timer, EngineState.getT, EngineState.setT]
  · intro msg loctp0 now r0 r1 s sm m hm hins hpre
    exact step4_reset_of_incons now r0 r1 sm m hm
      (before_step4_keep msg loctp0 s sm hpre m hins)
  · intro m now now2 rand s
    exact handle_timer_clears m now now2 rand s

/-- Witness for claim C10 on the concrete state `C10s`. -/
theorem C10_reset_frame_witness :
    ((reset_trickle_timer 5 3 0 C10s).getT 0).inconsistency =
      (C10s.getT 0).inconsistency ∧
    (reset_trickle_timer 5 3 0 C10s).windows = C10s.windows ∧
    ((icmp_step4 9 1 1 ((icmp_before_step4 [] none C10s).getD C10s)).getT
        0).c = 0 ∧
    (((handle_timer 0 2 3 true 4 C10s).state).getT 0).inconsistency =
      false := by
  have h1 := C10_reset_frame.1 5 3 0 C10s (by decide)
  have h2 := C10_reset_frame.2.1 [] none 9 1 1 C10s
    ((icmp_before_step4 [] none C10s).getD C10s) 0 (by decide) (by decide)
    (by decide)
  exact ⟨h1.1, h1.2.2.2.2.2.2.2.2.1, h2.1,
    C10_reset_frame.2.2 0 2 3 4 C10s⟩

/-- An element of the list by position. -/
lemma getD_mem {α : Type} [Inhabited α] (l : List α) (i : Nat)
    (h : i < l.length) : l.getD i default ∈ l := by
  rw [List.getD_eq_getElem?_getD, List.getElem?_eq_getElem h]
  exact List.getElem_mem h

/-- The running fold of `maxCount` from any accumulator. -/
lemma foldl_max_acc (ws : List SlidingWindow) :
    ∀ a : Nat, ws.foldl (fun x w => max x w.count) a = max a (maxCount ws) := by
  induction ws with
  | nil => intro a; simp [maxCount]
  | cons w ws ih =>
    intro a
    simp only [maxCount, List.foldl_cons]
    rw [ih (max a w.count), ih (max 0 w.count), Nat.zero_max, Nat.max_assoc]

/-- Every window's count is at most `maxCount`. -/
lemma mem_count_le_maxCount (ws : List SlidingWindow) (w : SlidingWindow)
    (hw : w ∈ ws) : w.count ≤ maxCount ws := by
  induction ws with
  | nil => cases hw
  | cons x ws ih =>
    simp only [maxCount, List.foldl_cons]
    rw [foldl_max_acc, Nat.zero_max]
    rcases List.mem_cons.mp hw with rfl | hw2
    · exact Nat.le_max_left _ _
    · exact Nat.le_trans (ih hw2) (Nat.le_max_right _ _)

/-- The selection loop returns either its initial best or a scanned
window with its position. -/
lemma reclaim_select_aux_spec (l : List SlidingWindow) :
    ∀ (i : Nat) (best : Nat × SlidingWindow),
      reclaim_select_aux l i best = best ∨
      ∃ k, k < l.length ∧
        reclaim_select_aux l i best = (i + k, l.getD k default) := by
  induction l with
  | nil => intro i best; left; rfl
  | cons w l ih =>
    intro i best
    simp only [reclaim_select_aux]
    by_cases hc : w.count > best.2.count
    · rw [if_pos hc]
      rcases ih (i + 1) (i, w) with h | ⟨k, hk, h⟩
      · right
        refine ⟨0, by simp, ?_⟩
        rw [h]; simp
      · right
        refine ⟨k + 1, by simpa using Nat.succ_lt_succ hk, ?_⟩
        rw [h, show i + 1 + k = i + (k + 1) from by omega]
        simp [List.getD_eq_getElem?_getD]
    · rw [if_neg hc]
      rcases ih (i + 1) best with h | ⟨k, hk, h⟩
      · left; exact h
      · right
        refine ⟨k + 1, by simpa using Nat.succ_lt_succ hk, ?_⟩
        rw [h, show i + 1 + k = i + (k + 1) from by omega]
        simp [List.getD_eq_getElem?_getD]

/-- The selection loop maximises the count. -/
lemma reclaim_select_aux_count (l : List SlidingWindow) :
    ∀ (i : Nat) (best : Nat × SlidingWindow),
      (reclaim_select_aux l i best).2.count =
        max best.2.count (maxCount l) := by
  induction l with
  | nil => intro i best; simp [maxCount, reclaim_select_aux]
  | cons w l ih =>
    intro i best
    simp only [reclaim_select_aux, maxCount, List.foldl_cons]
    rw [foldl_max_acc, Nat.zero_max]
    by_cases hc : w.count > best.2.count
    · rw [if_pos hc, ih]
      show max w.count (maxCount l) =
        max best.2.count (max w.count (maxCount l))
      rw [Nat.max_eq_right
        (Nat.le_trans (Nat.le_of_lt hc) (Nat.le_max_left _ _))]
    · rw [if_neg hc, ih]
      push_neg at hc
      rw [← Nat.max_assoc, Nat.max_eq_left hc]

/-- `reclaim_select` on a non-empty table returns a valid position whose
window has the maximal count. -/
lemma reclaim_select_spec (ws : List SlidingWindow) (hne : ws ≠ []) :
    ∃ sel w, reclaim_select ws = some (sel, w) ∧ sel < ws.length ∧
      ws.getD sel default = w ∧ w.count = maxCount ws := by
  have hlenpos : 0 < ws.length := List.length_pos.mpr hne
  have hlast : ws.getLast? = some (ws.getLast hne) :=
    List.getLast?_eq_getLast ws hne
  have hlastD : ws.getLast hne = ws.getD (ws.length - 1) default := by
    rw [List.getLast_eq_getElem]
    rw [List.getD_eq_getElem?_getD,
      List.getElem?_eq_getElem (by omega : ws.length - 1 < ws.length)]
    rfl
  have hcnt := reclaim_select_aux_count ws 0 (ws.length - 1, ws.getLast hne)
  have hmaxeq : (reclaim_select_aux ws 0
      (ws.length - 1, ws.getLast hne)).2.count = maxCount ws := by
    rw [hcnt]
    exact Nat.max_eq_right
      (mem_count_le_maxCount ws _ (List.getLast_mem hne))
  rcases reclaim_select_aux_spec ws 0 (ws.length - 1, ws.getLast hne) with
    h | ⟨k, hk, h⟩
  · refine ⟨ws.length - 1, ws.getLast hne, ?_, by omega, hlastD.symm, ?_⟩
    · unfold reclaim_select
      rw [hlast]
      show some (reclaim_select_aux ws 0 (ws.length - 1, ws.getLast hne)) = _
      rw [h]
    · rw [h] at hmaxeq
      simpa using hmaxeq
  · refine ⟨k, ws.getD k default, ?_, hk, rfl, ?_⟩
    · unfold reclaim_select
      rw [hlast]
      show some (reclaim_select_aux ws 0 (ws.length - 1, ws.getLast hne)) = _
      rw [h]
      simp
    · rw [h] at hmaxeq
      simpa using hmaxeq

/-- Failure of the eviction scan means no packet matches. -/
lemma reclaim_scan_none_iff (sel : Nat) (lb : Int) :
    ∀ ps : List McastPacket, reclaim_scan sel lb ps = none ↔
      ∀ p ∈ ps, ¬(p.is_used = true ∧ p.sw = sel ∧
        SEQ_VAL_IS_EQ p.seq_val lb = true) := by
  intro ps
  induction ps with
  | nil => simp [reclaim_scan]
  | cons p ps ih =>
    simp only [reclaim_scan]
    split
    · rename_i hc
      constructor
      · intro h; cases h
      · intro h; exact ((h p (List.mem_cons_self p ps)) hc).elim
    · rename_i hc
      rw [Option.map_eq_none', ih]
      constructor
      · intro h q hq
        rcases List.mem_cons.mp hq with rfl | hq2
        · exact hc
        · exact h q hq2
      · intro h q hq; exact h q (List.mem_cons_of_mem p hq)

/-- Success of the eviction scan returns a matching position. -/
lemma reclaim_scan_some (sel : Nat) (lb : Int) :
    ∀ (ps : List McastPacket) (j : Nat), reclaim_scan sel lb ps = some j →
      j < ps.length ∧ (ps.getD j default).is_used = true ∧
      (ps.getD j default).sw = sel ∧
      SEQ_VAL_IS_EQ (ps.getD j default).seq_val lb = true := by
  intro ps
  induction ps with
  | nil => intro j h; cases h
  | cons p ps ih =>
    intro j h
    simp only [reclaim_scan] at h
    split at h
    · rename_i hc
      simp only [Option.some.injEq] at h
      subst h
      exact ⟨Nat.succ_pos _, hc.1, hc.2.1, hc.2.2⟩
    · cases ho : reclaim_scan sel lb ps with
      | none => rw [ho] at h; cases h
      | some j2 =>
        rw [ho] at h
        simp only [Option.map_some', Option.some.injEq] at h
        subst h
        obtain ⟨hl, h1, h2, h3⟩ := ih j2 ho
        have hstep : (p :: ps).getD (j2 + 1) default = ps.getD j2 default := by
          simp [List.getD_eq_getElem?_getD]
        rw [hstep]
        exact ⟨by simpa using Nat.succ_lt_succ hl, h1, h2, h3⟩

/-- A used packet attached to window `i` forces a positive attachment
count. -/
lemma countAttached_pos (ps : List McastPacket) (i j : Nat)
    (hj : j < ps.length) (hu : (ps.getD j default).is_used = true)
    (hsw : (ps.getD j default).sw = i) : 1 ≤ countAttached ps i := by
  have hmem : ps.getD j default ∈ ps.filter
      (fun p => p.is_used && decide (p.sw = i)) :=
    List.mem_filter.mpr ⟨getD_mem ps j hj, by
      simp only [Bool.and_eq_true, decide_eq_true_eq]; exact ⟨hu, hsw⟩⟩
  exact List.length_pos.mpr (by rintro hnil; rw [hnil] at hmem; cases hmem)

/-- The attachment count is bounded by the buffer size. -/
lemma countAttached_le_length (ps : List McastPacket) (i : Nat) :
    countAttached ps i ≤ ps.length :=
  List.length_filter_le _ _

/-- The eviction scan succeeds when some packet matches. -/
lemma reclaim_scan_some_of_match (sel : Nat) (lb : Int)
    (ps : List McastPacket) (j0 : Nat) (hj : j0 < ps.length)
    (hm : (ps.getD j0 default).is_used = true ∧
      (ps.getD j0 default).sw = sel ∧
      SEQ_VAL_IS_EQ (ps.getD j0 default).seq_val lb = true) :
    ∃ j, reclaim_scan sel lb ps = some j := by
  cases h : reclaim_scan sel lb ps with
  | some j => exact ⟨j, rfl⟩
  | none =>
    exact (((reclaim_scan_none_iff sel lb ps).mp h _
      (getD_mem ps j0 hj)) hm).elim

/-- Claim C6.  Under the structural invariants (window counts agree with
the attached packets, every non-empty window realises its lower bound by
exactly one attached packet, buffer of uint8 size): `buffer_reclaim`
selects a window of maximal count; if that maximal count is at most 1 it
fails and leaves the state untouched (so the sole remaining packet of a
window is never evicted); otherwise it frees exactly the unique packet of
the selected window sitting at that window's lower bound, decrements the
window's count by one, refreshes all window bounds with
`window_update_bounds`, and returns the freed slot. -/
theorem C6_reclaim (s : EngineState)
    (hne : s.windows ≠ [])
    (hlen : s.buffered_msgs.length ≤ 255)
    (hcount : ∀ i, i < s.windows.length →
      (s.windows.getD i default).count = countAttached s.buffered_msgs i)
    (hreal : ∀ i, i < s.windows.length →
      1 ≤ (s.windows.getD i default).count →
      ∃ j, j < s.buffered_msgs.length ∧ attachedAtLower s j i)
    (huniq : ∀ i, i < s.windows.length →
      ∀ j1, j1 < s.buffered_msgs.length →
      ∀ j2, j2 < s.buffered_msgs.length →
      attachedAtLower s j1 i → attachedAtLower s j2 i → j1 = j2) :
    (maxCount s.windows ≤ 1 → buffer_reclaim s = (none, s)) ∧
    (2 ≤ maxCount s.windows →
      ∃ sel j, sel < s.windows.length ∧
        (s.windows.getD sel default).count = maxCount s.windows ∧
        j < s.buffered_msgs.length ∧ attachedAtLower s j sel ∧
        (∀ j2, j2 < s.buffered_msgs.length →
          attachedAtLower s j2 sel → j2 = j) ∧
        buffer_reclaim s = (some j,
          { s with
            buffered_msgs := s.buffered_msgs.set j
              (MCAST_PACKET_FREE (s.buffered_msgs.getD j default)),
            windows := window_update_bounds
              (s.windows.set sel
                ({ s.windows.getD sel default with
                   count := (s.windows.getD sel default).count - 1 }))
              (s.buffered_msgs.set j
                (MCAST_PACKET_FREE (s.buffered_msgs.getD j default))) })) := by
  obtain ⟨sel, w, hsel, hlt, hgd, hwc⟩ := reclaim_select_spec s.windows hne
  have hred : buffer_reclaim s =
      (if w.count = 1 then (none, s) else
        match reclaim_scan sel w.lower_bound s.buffered_msgs with
        | none => (none, s)
        | some j =>
          let ps := s.buffered_msgs.set j
            (MCAST_PACKET_FREE (s.buffered_msgs.getD j default))
          let ws := s.windows.set sel
            { w with count := (w.count + 255) % 256 }
          (some j, { s with windows := window_update_bounds ws ps,
                            buffered_msgs := ps })) := by
    unfold buffer_reclaim
    rw [hsel]
  constructor
  · intro hmax
    rw [hred]
    by_cases h1 : w.count = 1
    · rw [if_pos h1]
    · rw [if_neg h1]
      have h0 : w.count = 0 := by omega
      cases hscan : reclaim_scan sel w.lower_bound s.buffered_msgs with
      | none => rfl
      | some j =>
        exfalso
        obtain ⟨hjlen, hju, hjsw, hjeq⟩ :=
          reclaim_scan_some sel w.lower_bound s.buffered_msgs j hscan
        have hca := countAttached_pos s.buffered_msgs sel j hjlen hju hjsw
        have hcc := hcount sel hlt
        rw [hgd] at hcc
        omega
  · intro hmax
    have h1 : w.count ≠ 1 := by omega
    have hwcd : (s.windows.getD sel default).count = maxCount s.windows := by
      rw [hgd, hwc]
    obtain ⟨j0, hj0, hat0⟩ := hreal sel hlt (by rw [hwcd]; omega)
    obtain ⟨ha0, hb0, hc0⟩ := hat0
    have hc0w : SEQ_VAL_IS_EQ (s.buffered_msgs.getD j0 default).seq_val
        w.lower_bound = true := by rw [← hgd]; exact hc0
    obtain ⟨j, hscan⟩ := reclaim_scan_some_of_match sel w.lower_bound
      s.buffered_msgs j0 hj0 ⟨ha0, hb0, hc0w⟩
    obtain ⟨hjlen, hju, hjsw, hjeq⟩ :=
      reclaim_scan_some sel w.lower_bound s.buffered_msgs j hscan
    have hatj : attachedAtLower s j sel :=
      ⟨hju, hjsw, by rw [hgd]; exact hjeq⟩
    have harith : (w.count + 255) % 256 = w.count - 1 := by
      have hcc := hcount sel hlt
      rw [hgd] at hcc
      have hca := countAttached_le_length s.buffered_msgs sel
      omega
    refine ⟨sel, j, hlt, hwcd, hjlen, hatj, ?_, ?_⟩
    · intro j2 hj2 hat2
      exact huniq sel hlt j2 hj2 j hjlen hat2 hatj
    · rw [hred, if_neg h1]
      simp only [hscan]
      rw [harith, hgd]

/-- Witness for claim C6 on `C6s`: the window with the largest count (2)
has its lower-bound packet (sequence value 3, slot 0) evicted. -/
theorem C6_reclaim_witness :
    ∃ sel j, sel < C6s.windows.length ∧
      (C6s.windows.getD sel default).count = maxCount C6s.windows ∧
      j < C6s.buffered_msgs.length ∧ attachedAtLower C6s j sel ∧
      (∀ j2, j2 < C6s.buffered_msgs.length →
        attachedAtLower C6s j2 sel → j2 = j) ∧
      buffer_reclaim C6s = (some j,
        { C6s with
          buffered_msgs := C6s.buffered_msgs.set j
            (MCAST_PACKET_FREE (C6s.buffered_msgs.getD j default)),
          windows := window_update_bounds
            (C6s.windows.set sel
              ({ C6s.windows.getD sel default with
                 count := (C6s.windows.getD sel default).count - 1 }))
            (C6s.buffered_msgs.set j
              (MCAST_PACKET_FREE (C6s.buffered_msgs.getD j default))) }) :=
  (C6_reclaim C6s (by decide) (by decide) (by decide) (by decide)
    (by decide)).2 (by decide)

@[simp] lemma setT_windows (s : EngineState) (m : Nat) (p : TrickleParam) :
    (s.setT m p).windows = s.windows := by
  unfold EngineState.setT; by_cases hm : m = 0 <;> simp [hm]

@[simp] lemma setT_buffered (s : EngineState) (m : Nat) (p : TrickleParam) :
    (s.setT m p).buffered_msgs = s.buffered_msgs := by
  unfold EngineState.setT; by_cases hm : m = 0 <;> simp [hm]

@[simp] lemma reset_windows (now rand m : Nat) (s : EngineState) :
    (reset_trickle_timer now rand m s).windows = s.windows := by
  unfold reset_trickle_timer; simp

@[simp] lemma reset_buffered (now rand m : Nat) (s : EngineState) :
    (reset_trickle_timer now rand m s).buffered_msgs = s.buffered_msgs := by
  unfold reset_trickle_timer; simp

@[simp] lemma addInAll_windows (s : EngineState) :
    (addInAll s).windows = s.windows := rfl

@[simp] lemma addInAll_buffered (s : EngineState) :
    (addInAll s).buffered_msgs = s.buffered_msgs := rfl

@[simp] lemma addInUnique_windows (s : EngineState) :
    (addInUnique s).windows = s.windows := rfl

@[simp] lemma addInUnique_buffered (s : EngineState) :
    (addInUnique s).buffered_msgs = s.buffered_msgs := rfl

/-- No sequence value is serially below itself. -/
lemma seq_lt_self_false (x : Int) : SEQ_VAL_IS_LT x x = false := by
  simp [SEQ_VAL_IS_LT]

/-- No sequence value is serially above itself. -/
lemma seq_gt_self_false (x : Int) : SEQ_VAL_IS_GT x x = false := by
  simp [SEQ_VAL_IS_GT]

/-- A successful window lookup returns an index into the table. -/
lemma window_lookup_lt_length (seed m : Nat) :
    ∀ (ws : List SlidingWindow) (i : Nat),
      window_lookup seed m ws = some i → i < ws.length := by
  intro ws
  induction ws with
  | nil => intro i h; cases h
  | cons w ws ih =>
    intro i h
    simp only [window_lookup] at h
    split at h
    · simp only [Option.some.injEq] at h; rw [← h]; simp
    · cases ho : window_lookup seed m ws with
      | none => rw [ho] at h; cases h
      | some i2 =>
        rw [ho] at h
        simp only [Option.map_some', Option.some.injEq] at h
        subst h
        have := ih i2 ho
        simpa using Nat.succ_lt_succ this

/-- A successful buffer allocation returns a slot index. -/
lemma buffer_allocate_lt_length :
    ∀ (ps : List McastPacket) (j : Nat),
      buffer_allocate ps = some j → j < ps.length := by
  intro ps
  induction ps with
  | nil => intro j h; cases h
  | cons p ps ih =>
    intro j h
    simp only [buffer_allocate] at h
    split at h
    · cases ho : buffer_allocate ps with
      | none => rw [ho] at h; cases h
      | some j2 =>
        rw [ho] at h
        simp only [Option.map_some', Option.some.injEq] at h
        subst h
        have := ih j2 ho
        simpa using Nat.succ_lt_succ this
    · simp only [Option.some.injEq] at h; rw [← h]; simp

/-- A successful window allocation returns an index to a slot whose
count (and bounds) have been initialised, in a table of unchanged
length. -/
lemma window_allocate_spec :
    ∀ (ws ws2 : List SlidingWindow) (i : Nat),
      window_allocate ws = some (i, ws2) →
      i < ws2.length ∧ ws2.length = ws.length ∧
        (ws2.getD i default).count = 0 := by
  intro ws
  induction ws with
  | nil => intro ws2 i h; cases h
  | cons w ws ih =>
    intro ws2 i h
    simp only [window_allocate] at h
    split at h
    · cases ho : window_allocate ws with
      | none => rw [ho] at h; cases h
      | some pr =>
        rw [ho] at h
        cases pr with
        | mk i2 ws3 =>
          simp only [Option.some.injEq, Prod.mk.injEq] at h
          obtain ⟨hi, hws⟩ := h
          subst hi; subst hws
          obtain ⟨h1, h2, h3⟩ := ih ws3 i2 ho
          refine ⟨by simpa using Nat.succ_lt_succ h1, by simp [h2], ?_⟩
          have : (w :: ws3).getD (i2 + 1) default = ws3.getD i2 default := by
            simp [List.getD_eq_getElem?_getD]
          rw [this]; exact h3
    · simp only [Option.some.injEq, Prod.mk.injEq] at h
      obtain ⟨hi, hws⟩ := h
      subst hi; subst hws
      exact ⟨by simp, by simp, rfl⟩

/-- Admission tail of `roll_trickle_accept` (roll-trickle.c:1007-1050)
with a valid packet slot: the datagram is accepted, the slot holds the
new packet attached to window `wi`, and the new sequence value violates
neither the (possibly updated) lower bound nor the updated upper bound,
provided the window was empty or the too-old check already failed. -/
lemma accept_insert_spec (inb : Bool) (d : Datagram) (now rand : Nat)
    (s : EngineState) (wi j : Nat) (hwi : wi < s.windows.length)
    (hj : j < s.buffered_msgs.length)
    (hlow : (s.windows.getD wi default).count = 0 ∨
      SEQ_VAL_IS_LT d.seq_val (s.windows.getD wi default).lower_bound =
        false) :
    (accept_insert inb d now rand s wi (some j)).1 = AcceptResult.accepted ∧
    (((accept_insert inb d now rand s wi (some j)).2.buffered_msgs.getD j
        default).is_used = true) ∧
    (((accept_insert inb d now rand s wi (some j)).2.buffered_msgs.getD j
        default).seq_val = d.seq_val) ∧
    (((accept_insert inb d now rand s wi (some j)).2.buffered_msgs.getD j
        default).sw = wi) ∧
    SEQ_VAL_IS_LT d.seq_val
      (((accept_insert inb d now rand s wi (some j)).2.windows.getD wi
        default).lower_bound) = false ∧
    SEQ_VAL_IS_GT d.seq_val
      (((accept_insert inb d now rand s wi (some j)).2.windows.getD wi
        default).upper_bound) = false := by
  simp only [accept_insert]
  cases inb
  case false =>
    simp only [Bool.false_eq_true, reduceIte]
    refine ⟨?_, ?_, ?_, ?_, ?_, ?_⟩
    · trivial
    · simp only [reset_buffered, setT_buffered]
      rw [getD_set_self _ _ _ hj]
    · simp only [reset_buffered, setT_buffered]
      rw [getD_set_self _ _ _ hj]
    · simp only [reset_buffered, setT_buffered]
      rw [getD_set_self _ _ _ hj]
    · simp only [reset_windows, setT_windows]
      rw [getD_set_self _ _ _ hwi]
      rw [List.getD_eq_getElem?_getD] at hlow
      by_cases hcnt : (s.windows[wi]?.getD default).count = 0
      · simp [hcnt, seq_lt_self_false]
      · by_cases hgt : SEQ_VAL_IS_GT d.seq_val
            (s.windows[wi]?.getD default).upper_bound = true
        · simp [hcnt, hgt, hlow.resolve_left hcnt]
        · simp [hcnt, hgt, hlow.resolve_left hcnt]
    · simp only [reset_windows, setT_windows]
      rw [getD_set_self _ _ _ hwi]
      by_cases hcnt : (s.windows[wi]?.getD default).count = 0
      · simp [hcnt, seq_gt_self_false]
      · by_cases hgt : SEQ_VAL_IS_GT d.seq_val
            (s.windows[wi]?.getD default).upper_bound = true
        · simp [hcnt, hgt, seq_gt_self_false]
        · rw [Bool.not_eq_true] at hgt
          simp [hcnt, hgt]
  case true =>
    simp only [reduceIte, addInUnique_windows, addInUnique_buffered]
    refine ⟨?_, ?_, ?_, ?_, ?_, ?_⟩
    · trivial
    · simp only [reset_buffered, setT_buffered]
      rw [getD_set_self _ _ _ hj]
    · simp only [reset_buffered, setT_buffered]
      rw [getD_set_self _ _ _ hj]
    · simp only [reset_buffered, setT_buffered]
      rw [getD_set_self _ _ _ hj]
    · simp only [reset_windows, setT_windows]
      rw [getD_set_self _ _ _ hwi]
      rw [List.getD_eq_getElem?_getD] at hlow
      by_cases hcnt : (s.windows[wi]?.getD default).count = 0
      · simp [hcnt, seq_lt_self_false]
      · by_cases hgt : SEQ_VAL_IS_GT d.seq_val
            (s.windows[wi]?.getD default).upper_bound = true
        · simp [hcnt, hgt, hlow.resolve_left hcnt]
        · simp [hcnt, hgt, hlow.resolve_left hcnt]
    · simp only [reset_windows, setT_windows]
      rw [getD_set_self _ _ _ hwi]
      by_cases hcnt : (s.windows[wi]?.getD default).count = 0
      · simp [hcnt, seq_gt_self_false]
      · by_cases hgt : SEQ_VAL_IS_GT d.seq_val
            (s.windows[wi]?.getD default).upper_bound = true
        · simp [hcnt, hgt, seq_gt_self_false]
        · rw [Bool.not_eq_true] at hgt
          simp [hcnt, hgt]

/-- C5 (amended): the unrestricted spec invariant fails
(`C5_counterexample`), but the per-admission form holds: whenever
`roll_trickle_accept` accepts a datagram and the packet buffer had a
free slot `j` (`buffer_allocate` succeeds, so no reclamation runs),
then in the resulting state slot `j` holds a used packet carrying the
datagram's sequence value, attached to some window `wi`, and that value
is neither serially below `wi`'s lower bound nor serially above `wi`'s
upper bound (roll-trickle.c:1007-1050). -/
theorem C5_amended (inb : Bool) (d : Datagram) (now rand : Nat)
    (s s' : EngineState) (j : Nat)
    (halloc : buffer_allocate s.buffered_msgs = some j)
    (hres : roll_trickle_accept inb d now rand s =
      (AcceptResult.accepted, s')) :
    ∃ wi,
      (s'.buffered_msgs.getD j default).is_used = true ∧
      (s'.buffered_msgs.getD j default).seq_val = d.seq_val ∧
      (s'.buffered_msgs.getD j default).sw = wi ∧
      SEQ_VAL_IS_LT d.seq_val
        ((s'.windows.getD wi default).lower_bound) = false ∧
      SEQ_VAL_IS_GT d.seq_val
        ((s'.windows.getD wi default).upper_bound) = false := by
  have hw : (if inb then addInAll s else s).windows = s.windows := by
    cases inb <;> rfl
  have hb : (if inb then addInAll s else s).buffered_msgs =
      s.buffered_msgs := by cases inb <;> rfl
  have hj : j < s.buffered_msgs.length :=
    buffer_allocate_lt_length s.buffered_msgs j halloc
  simp only [roll_trickle_accept] at hres
  split at hres
  · simp at hres
  split at hres
  · simp at hres
  split at hres
  · simp at hres
  split at hres
  · simp at hres
  split at hres
  · simp at hres
  set sA := if inb then addInAll s else s with hA
  rw [hw, hb] at hres
  cases hlk : window_lookup d.seed d.m s.windows with
  | some wi =>
    simp only [hlk] at hres
    split at hres
    · simp at hres
    rename_i hlt
    split at hres
    · simp at hres
    simp only [accept_have_window, hb, halloc] at hres
    have hs' : (accept_insert inb d now rand sA wi (some j)).2 = s' :=
      congrArg Prod.snd hres
    rw [Bool.not_eq_true] at hlt
    have spec := accept_insert_spec inb d now rand sA wi j
      (by rw [hw]; exact window_lookup_lt_length d.seed d.m s.windows wi hlk)
      (by rw [hb]; exact hj)
      (by rw [hw]; exact Or.inr hlt)
    refine ⟨wi, ?_, ?_, ?_, ?_, ?_⟩ <;> rw [← hs']
    · exact spec.2.1
    · exact spec.2.2.1
    · exact spec.2.2.2.1
    · exact spec.2.2.2.2.1
    · exact spec.2.2.2.2.2
  | none =>
    simp only [hlk] at hres
    cases halc : window_allocate s.windows with
    | none => simp only [halc] at hres; simp at hres
    | some pr =>
      obtain ⟨wi, ws⟩ := pr
      simp only [halc] at hres
      obtain ⟨hwi, hlen, hcnt⟩ := window_allocate_spec s.windows ws wi halc
      simp only [accept_have_window, hb, halloc] at hres
      have hs' : (accept_insert inb d now rand
          { sA with windows := ws, buffered_msgs := s.buffered_msgs }
          wi (some j)).2 = s' :=
        congrArg Prod.snd hres
      have spec := accept_insert_spec inb d now rand
        { sA with windows := ws, buffered_msgs := s.buffered_msgs } wi j
        hwi hj (Or.inl hcnt)
      refine ⟨wi, ?_, ?_, ?_, ?_, ?_⟩ <;> rw [← hs']
      · exact spec.2.1
      · exact spec.2.2.1
      · exact spec.2.2.2.1
      · exact spec.2.2.2.2.1
      · exact spec.2.2.2.2.2

/-- Witness for `C5_amended`: the first admission into the freshly
initialised engine (seed 5, sequence value 7, slot 0). -/
theorem C5_amended_witness :
    buffer_allocate C5s0.buffered_msgs = some 0 ∧
    ∃ wi,
      (((roll_trickle_accept false (mkDgram 5 7) 0 0 C5s0).2.buffered_msgs.getD
          0 default).is_used = true) ∧
      (((roll_trickle_accept false (mkDgram 5 7) 0 0 C5s0).2.buffered_msgs.getD
          0 default).seq_val = (mkDgram 5 7).seq_val) ∧
      (((roll_trickle_accept false (mkDgram 5 7) 0 0 C5s0).2.buffered_msgs.getD
          0 default).sw = wi) ∧
      SEQ_VAL_IS_LT (mkDgram 5 7).seq_val
        (((roll_trickle_accept false (mkDgram 5 7) 0 0 C5s0).2.windows.getD wi
          default).lower_bound) = false ∧
      SEQ_VAL_IS_GT (mkDgram 5 7).seq_val
        (((roll_trickle_accept false (mkDgram 5 7) 0 0 C5s0).2.windows.getD wi
          default).upper_bound) = false :=
  ⟨by decide,
    C5_amended false (mkDgram 5 7) 0 0 C5s0
      ((roll_trickle_accept false (mkDgram 5 7) 0 0 C5s0).2) 0
      (by decide) (by decide)⟩
